import Mathlib

set_option linter.unusedSectionVars false

/-!
# libcozmo action spaces

A shallow embedding of the action-space code of libcozmo:

* `src/src/actionspace/ObjectOrientedActionSpace.cpp`
* `src/include/action_space/generic_action_space.hpp`
* `src/src/action_space/generic_action_space.cpp`

Conventions of the embedding.

* `double` values are elements of a type `α` with the arithmetic operations
  and decidable equality. The theorems read the definitions over an
  arbitrary field (exact arithmetic: executable over `ℚ`, readable over `ℝ`,
  no rounding); where rounding or NaN decide what the code computes, the
  same definitions are evaluated over `F64`, a model of IEEE 754 binary64.
* `std::vector<T>` is `List T`; a vector of pointers that may be null is a
  list of `Option`.
* `int` is `Int` restricted to the 32-bit range, `std::size_t` is `Nat`
  below `2 ^ w`; the two conversions between them are explicit.
* C++ undefined behaviour (an out-of-bounds `operator[]`, a null
  dereference, signed overflow) is the result `Outcome.ub`.
-/

namespace libcozmo
namespace actionspace

/-! ## Results of running C++ code -/

/-- Result of running a piece of C++ code: a value, or undefined behaviour. -/
inductive Outcome (β : Type) where
  | ok (v : β) : Outcome β
  | ub : Outcome β
deriving DecidableEq

/-- Sequencing of computations that may hit undefined behaviour. -/
def Outcome.bind {β γ : Type} (x : Outcome β) (f : β → Outcome γ) : Outcome γ :=
  match x with
  | Outcome.ok v => f v
  | Outcome.ub => Outcome.ub

instance : Monad Outcome where
  pure := Outcome.ok
  bind := Outcome.bind

/-! ## Machine integers -/

/-- Predicate: the natural number fits in a (32-bit, signed) `int`. -/
def fitsInt (n : Nat) : Prop := n < 2147483648

instance (n : Nat) : Decidable (fitsInt n) :=
  inferInstanceAs (Decidable (n < 2147483648))

/-- Predicate: the integer is a value of the 32-bit signed type `int`. -/
def isInt (i : Int) : Prop := -2147483648 ≤ i ∧ i < 2147483648

instance (i : Int) : Decidable (isInt i) :=
  inferInstanceAs (Decidable (-2147483648 ≤ i ∧ i < 2147483648))

/-- Conversion `int → std::size_t` (width `w`): the value modulo `2 ^ w`. -/
def toSizeT (w : Nat) (i : Int) : Nat := (i % 2 ^ w).toNat

/-- Conversion `std::size_t → int`: the value modulo `2 ^ 32`, read as signed. -/
def toInt (n : Nat) : Int := ((n : Int) + 2147483648) % 4294967296 - 2147483648

/-- The access `v[i]` of `std::vector::operator[]`, which takes a
`std::size_t` and checks nothing: an index past the end is undefined
behaviour. -/
def vecIndex {β : Type} (v : List β) (i : Nat) : Outcome β :=
  match v[i]? with
  | some x => Outcome.ok x
  | none => Outcome.ub

/-- Dereference of a pointer that may be null. -/
def deref {β : Type} (p : Option β) : Outcome β :=
  match p with
  | some x => Outcome.ok x
  | none => Outcome.ub

/-! ## IEEE 754 binary64

The type `double` of the sources, for the places where rounding, infinities
or NaN decide what the code computes. Every operation is the exact result
rounded to nearest, ties to even. Equality of terms is equality of values
except that `+0` and `-0` are distinct terms and `nan` is equal to itself;
the only `==` on `double` in the sources compares a side with the side
constants, where the two notions agree. -/

/-- Number of binary digits of `n` (`0` for `0`); the first argument bounds the
number of digits looked at. -/
def bitLength : Nat → Nat → Nat
  | 0, _ => 0
  | fuel + 1, n => if n = 0 then 0 else bitLength fuel (n / 2) + 1

/-- An IEEE 754 binary64 value: a finite value `(-1)^sign * m * 2^e` (with `m`
odd, or `m = 0` and `e = 0`, so that equal values are equal terms and the two
zeros are distinct), an infinity, or NaN. -/
inductive F64 where
  | fin (sign : Bool) (m : Nat) (e : Int) : F64
  | inf (sign : Bool) : F64
  | nan : F64
deriving DecidableEq

namespace F64

/-- Removal of the trailing zero bits of a significand. -/
def normalize : Nat → Nat → Int → Nat × Int
  | 0, m, e => (m, e)
  | fuel + 1, m, e =>
    if m = 0 then (0, 0)
    else if m % 2 = 0 then normalize fuel (m / 2) (e + 1)
    else (m, e)

/-- The finite value `(-1)^sign * m * 2^e`, or the infinity when the magnitude
reaches `2^1024`. -/
def finish (sign : Bool) (m : Nat) (e : Int) : F64 :=
  if m = 0 then fin sign 0 0
  else if (bitLength 4096 m : Int) + e > 1024 then inf sign
  else fin sign (normalize 4096 m e).1 (normalize 4096 m e).2

/-- Rounding of the exact value `(-1)^sign * n * 2^e` to binary64: to nearest,
ties to even, with 53 significant bits and least exponent `-1074`. -/
def round (sign : Bool) (n : Nat) (e : Int) : F64 :=
  let ulp : Int := max (e + (bitLength 4096 n : Int) - 53) (-1074)
  if ulp ≤ e then finish sign n e
  else
    let shift := (ulp - e).toNat
    let q := n / 2 ^ shift
    let r := n % 2 ^ shift
    let half := 2 ^ (shift - 1)
    finish sign (if r > half ∨ (r = half ∧ q % 2 = 1) then q + 1 else q) ulp

/-- The operation `-x`. -/
def neg : F64 → F64
  | fin s m e => fin (!s) m e
  | inf s => inf (!s)
  | nan => nan

/-- The operation `x + y`. -/
def add : F64 → F64 → F64
  | nan, _ => nan
  | _, nan => nan
  | inf s, inf t => if s = t then inf s else nan
  | inf s, fin _ _ _ => inf s
  | fin _ _ _, inf t => inf t
  | fin s1 m1 e1, fin s2 m2 e2 =>
    let e := min e1 e2
    let a := m1 * 2 ^ (e1 - e).toNat
    let b := m2 * 2 ^ (e2 - e).toNat
    if s1 = s2 then round s1 (a + b) e
    else if a > b then round s1 (a - b) e
    else if a < b then round s2 (b - a) e
    else fin false 0 0

/-- The operation `x * y`. -/
def mul : F64 → F64 → F64
  | nan, _ => nan
  | _, nan => nan
  | inf s, inf t => inf (xor s t)
  | inf s, fin t m _ => if m = 0 then nan else inf (xor s t)
  | fin s m _, inf t => if m = 0 then nan else inf (xor s t)
  | fin s1 m1 e1, fin s2 m2 e2 => round (xor s1 s2) (m1 * m2) (e1 + e2)

/-- The operation `x / y`. The quotient is taken with more than 64 binary
digits and a last digit that records a non-zero remainder, then rounded. -/
def div : F64 → F64 → F64
  | nan, _ => nan
  | _, nan => nan
  | inf _, inf _ => nan
  | inf s, fin t _ _ => inf (xor s t)
  | fin s _ _, inf t => fin (xor s t) 0 0
  | fin s1 m1 e1, fin s2 m2 e2 =>
    if m2 = 0 then (if m1 = 0 then nan else inf (xor s1 s2))
    else
      let p := 64 + bitLength 4096 m2
      let q := m1 * 2 ^ p / m2
      let sticky := if m1 * 2 ^ p % m2 = 0 then 0 else 1
      round (xor s1 s2) (2 * q + sticky) (e1 - e2 - (p : Int) - 1)

/-- Integer square root, one binary digit at a time. -/
def isqrtBits (n : Nat) : Nat → Nat → Nat
  | 0, acc => acc
  | b + 1, acc => isqrtBits n b (if (acc + 2 ^ b) * (acc + 2 ^ b) ≤ n then acc + 2 ^ b else acc)

/-- The function `sqrt` of `<cmath>`, correctly rounded. -/
def sqrt : F64 → F64
  | nan => nan
  | inf s => if s then nan else inf false
  | fin s m e =>
    if m = 0 then fin s 0 0
    else if s then nan
    else
      let t : Nat := if (e - 110) % 2 = 0 then 110 else 111
      let n := m * 2 ^ t
      let q := isqrtBits n (bitLength 4096 n / 2 + 1) 0
      let sticky := if q * q = n then 0 else 1
      round false (2 * q + sticky) ((e - (t : Int)) / 2 - 1)

/-- Conversion of a non-negative integer to binary64. -/
def ofNat (n : Nat) : F64 := round false n 0

/-- The power `x ^ n` by repeated multiplication. -/
def pow (x : F64) : Nat → F64
  | 0 => ofNat 1
  | n + 1 => mul (pow x n) x

instance : Zero F64 := ⟨fin false 0 0⟩
instance : One F64 := ⟨ofNat 1⟩
instance : Add F64 := ⟨add⟩
instance : Sub F64 := ⟨fun x y => add x (neg y)⟩
instance : Mul F64 := ⟨mul⟩
instance : Div F64 := ⟨div⟩
instance : Neg F64 := ⟨neg⟩
instance : NatCast F64 := ⟨ofNat⟩
instance : Pow F64 ℕ := ⟨pow⟩

end F64

/-- The constant `M_PI` of `<cmath>`: the binary64 value nearest to `π`,
`3.141592653589793`. -/
def M_PI : F64 := F64.fin false 884279719003555 (-48)

/-- The exact value of a finite binary64 number in units of `2 ^ (-1074)`
(of which every finite binary64 number is a whole multiple); `0` for the
infinities and NaN. -/
def F64.toUnits : F64 → Int
  | F64.fin s m e => (if s then -1 else 1) * ((m * 2 ^ (e + 1074).toNat : Nat) : Int)
  | F64.inf _ => 0
  | F64.nan => 0

/-! ## Helpers of `utils/utils.hpp` -/

section Defs

variable {α : Type} [Zero α] [One α] [Add α] [Sub α] [Mul α] [Div α] [Neg α] [NatCast α]
  [Pow α ℕ] [DecidableEq α]

/-- Modelled from the spec: `utils::linspace(start, end, n)` is declared in
`utils/utils.hpp`, which is not among the sources. It is the MATLAB-style
interpolation: `n` samples, sample `l` being
`start + l * (end - start) / (n - 1)`. -/
def linspace (start stop : α) (n : Nat) : List α :=
  (List.range n).map (fun (l : Nat) => start + (l : α) * (stop - start) / ((n : α) - 1))

/-- Modelled from the spec: `utils::euclidean_distance(u, v)` is declared in
`utils/utils.hpp`, which is not among the sources. It is the Euclidean
distance between two vectors, the square root (a parameter) of the sum of
the squared componentwise differences. -/
def euclidean_distance (sqrt : α → α) (u v : List α) : α :=
  sqrt ((List.zipWith (fun a b => (a - b) ^ 2) u v).sum)

/-! ## ObjectOrientedActionSpace -/

/-- Modelled from the spec: the side `FRONT` of `ObjectOrientedActionSpace.hpp`. -/
def FRONT : α := 0

/-- Modelled from the spec: the side `LEFT` of `ObjectOrientedActionSpace.hpp`. -/
def LEFT (pi : α) : α := pi / 2

/-- Modelled from the spec: the side `BACK` of `ObjectOrientedActionSpace.hpp`. -/
def BACK (pi : α) : α := pi

/-- Modelled from the spec: the side `RIGHT` of `ObjectOrientedActionSpace.hpp`. -/
def RIGHT (pi : α) : α := 3 * pi / 2

/-- Modelled from the spec: the class `GenericAction` is declared in
`ObjectOrientedActionSpace.hpp`, which is not among the sources. Its fields
are the four of the spec's data model (speed, edge offset ratio, aspect
ratio, heading offset), in the order of the constructor call
`GenericAction(speed, -cube_offset / m_edge_offset, ratio, heading_offset)`
and under the member names `ObjectOrientedActionSpace.cpp` reads. -/
structure GenericAction (α : Type) where
  m_speed : α
  m_edge_offset : α
  m_aspect_ratio : α
  m_heading_offset : α
deriving DecidableEq

/-- The data members of `ObjectOrientedActionSpace`, those the constructor of
`ObjectOrientedActionSpace.cpp` initialises, and the table `m_actions`. Every
pointer pushed into `m_actions` comes from `new`, so the table is a list of
actions. -/
structure ObjectOrientedActionSpace (α : Type) where
  m_speeds : List α
  m_ratios : List α
  num_offset : Nat
  m_center_offset : α
  m_edge_offset : α
  m_actions : List (GenericAction α)

/-- Modelled from the spec: the pose of the object, an `aikido` `SE2` state
whose class is not among the sources. It is read through `getIsometry()` as
the translation `(x, y)` and the angle of the rotation. -/
structure SE2State (α : Type) where
  x : α
  y : α
  angle : α
deriving DecidableEq

/-- Modelled from the spec: the class `ObjectOrientedAction` is declared in
`ObjectOrientedActionSpace.hpp`, which is not among the sources. It holds a
speed and a start pose `(x, y, θ)`, in the order of the constructor call
`ObjectOrientedAction(speed, Eigen::Vector3d(x, y, theta))`. -/
structure ObjectOrientedAction (α : Type) where
  speed : α
  start_pose : α × α × α
deriving DecidableEq

/-- Modelled from the spec: the ROS message `libcozmo::ObjectOrientedAction`,
whose definition is not among the sources, with the five fields
`publish_action` assigns. -/
structure ObjectOrientedActionMsg (α : Type) where
  speed : α
  duration : α
  x : α
  y : α
  theta : α
deriving DecidableEq

namespace ObjectOrientedActionSpace

/-- The list `sides{FRONT, LEFT, BACK, RIGHT}` of the constructor. -/
def sides (pi : α) : List α := [FRONT, LEFT pi, BACK pi, RIGHT pi]

/-- The local `cube_offsets` of the constructor. -/
def cube_offsets (edge_offset : α) (num_offset : Nat) : List α :=
  if num_offset = 1 then [0] else linspace (-edge_offset) edge_offset num_offset

/-- The two inner loops of the constructor for one side: every cube offset,
every speed, one `push_back` each. -/
def pushSide (speeds : List α) (edge_offset : α) (offsets : List α)
    (ratio heading_offset : α) (acts : List (GenericAction α)) : List (GenericAction α) :=
  offsets.foldl (fun acts cube_offset =>
    speeds.foldl (fun acts speed =>
      acts ++ [GenericAction.mk speed (-cube_offset / edge_offset) ratio heading_offset])
      acts) acts

/-- The expression `(heading_offset == FRONT || heading_offset == BACK) ?
m_ratios[0] : m_ratios[1]` of the constructor. -/
def sideRatio (pi : α) (ratios : List α) (heading_offset : α) : Outcome α :=
  if heading_offset = FRONT ∨ heading_offset = BACK pi then vecIndex ratios 0
  else vecIndex ratios 1

/-- The loop nest of the constructor, filling `m_actions`. -/
def buildActions (pi : α) (speeds ratios : List α) (edge_offset : α)
    (offsets : List α) : Outcome (List (GenericAction α)) :=
  (sides pi).foldlM (fun acts heading_offset => do
    let ratio ← sideRatio pi ratios heading_offset
    pure (pushSide speeds edge_offset offsets ratio heading_offset acts)) []

/-- The constructor `ObjectOrientedActionSpace(speeds, ratios, edge_offset,
num_offset)`. The counter `action_id` is incremented once per stored action;
its overflow is undefined behaviour. -/
def construct (pi : α) (speeds ratios : List α) (edge_offset : α)
    (num_offset : Nat) : Outcome (ObjectOrientedActionSpace α) := do
  let acts ← buildActions pi speeds ratios edge_offset (cube_offsets edge_offset num_offset)
  if fitsInt acts.length then
    pure (ObjectOrientedActionSpace.mk speeds ratios num_offset 60 edge_offset acts)
  else Outcome.ub

/-- The method `is_valid_action_id`:
`action_id < m_actions.size() && action_id >= 0`, the first comparison being
made in `std::size_t`. -/
def is_valid_action_id (w : Nat) (s : ObjectOrientedActionSpace α) (action_id : Int) : Bool :=
  decide (toSizeT w action_id < s.m_actions.length) && decide (action_id ≥ 0)

/-- The method `size`: `m_actions.size()` returned as `int`. -/
def size (s : ObjectOrientedActionSpace α) : Int := toInt s.m_actions.length

/-- The method `get_action`: `nullptr` (here `none`) for an invalid id, else
`m_actions[action_id]`. -/
def get_action (w : Nat) (s : ObjectOrientedActionSpace α) (action_id : Int) :
    Outcome (Option (GenericAction α)) :=
  if !is_valid_action_id w s action_id then Outcome.ok none
  else do
    let a ← vecIndex s.m_actions (toSizeT w action_id)
    pure (some a)

/-- The method `action_similarity(action_id1, action_id2, similarity)`. The
argument `similarity` is the value stored at the output pointer before the
call; the result pairs the returned `bool` with the value stored there after
the call. -/
def action_similarity (w : Nat) (sqrt : α → α) (s : ObjectOrientedActionSpace α)
    (action_id1 action_id2 : Int) (similarity : α) : Outcome (Bool × α) :=
  if !(is_valid_action_id w s action_id1 && is_valid_action_id w s action_id2) then
    Outcome.ok (false, similarity)
  else do
    let action1 ← vecIndex s.m_actions (toSizeT w action_id1)
    let action2 ← vecIndex s.m_actions (toSizeT w action_id2)
    let action1_vector := [action1.m_speed, action1.m_edge_offset, action1.m_aspect_ratio]
    let action2_vector := [action2.m_speed, action2.m_edge_offset, action2.m_aspect_ratio]
    pure (true, euclidean_distance sqrt action1_vector action2_vector)

/-- The method `get_generic_to_object_oriented_action(action_id, _state,
action)`. The argument `action` is the value stored at the output pointer
before the call; the result pairs the returned `bool` with the value stored
there after the call. `cos`, `sin` and `utils::angle_normalization` (declared
in `utils/utils.hpp`, not among the sources) are parameters. -/
def get_generic_to_object_oriented_action (w : Nat) (cos sin angle_normalization : α → α)
    (s : ObjectOrientedActionSpace α) (action_id : Int) (_state : SE2State α)
    (action : ObjectOrientedAction α) : Outcome (Bool × ObjectOrientedAction α) := do
  let _action ← get_action w s action_id
  match _action with
  | none => pure (false, action)
  | some _action =>
    let position := (_state.x, _state.y)
    let angle := _state.angle
    let heading := _action.m_heading_offset
    pure (true, ObjectOrientedAction.mk _action.m_speed
      (position.1 - s.m_center_offset * cos heading +
          _action.m_edge_offset * s.m_edge_offset * sin heading,
        position.2 - s.m_center_offset * sin heading +
          _action.m_edge_offset * s.m_edge_offset * cos heading,
        angle_normalization (angle + heading)))

/-- The method `publish_action(action_id, publisher, _state)`. The publisher
is the list of the messages published so far; the result pairs the returned
`bool` with that list after the call. -/
def publish_action (w : Nat) (cos sin angle_normalization : α → α)
    (s : ObjectOrientedActionSpace α) (action_id : Int)
    (publisher : List (ObjectOrientedActionMsg α)) (_state : SE2State α) :
    Outcome (Bool × List (ObjectOrientedActionMsg α)) := do
  let OO_action := ObjectOrientedAction.mk 0 (0, 0, 0)
  let r ← get_generic_to_object_oriented_action w cos sin angle_normalization s action_id
    _state OO_action
  if !r.1 then pure (false, publisher)
  else
    let OO_action := r.2
    let start_pose := OO_action.start_pose
    let msg := ObjectOrientedActionMsg.mk OO_action.speed 1 start_pose.1 start_pose.2.1
      start_pose.2.2
    pure (true, publisher ++ [msg])

end ObjectOrientedActionSpace

/-! ## GenericActionSpace -/

/-- The class `GenericActionSpace::Action`: `Action(speed, duration, heading)`. -/
structure GenericActionSpace.Action (α : Type) where
  m_speed : α
  m_duration : α
  m_heading : α
deriving DecidableEq

/-- The data members of `GenericActionSpace`: the table `m_actions` of
pointers to actions, `none` being `nullptr`. -/
structure GenericActionSpace (α : Type) where
  m_actions : List (Option (GenericActionSpace.Action α))

namespace GenericActionSpace

/-- The local `m_headings` of the constructor:
`linspace(0.0, 2.0 * M_PI - 2.0 * M_PI / num_heading, num_heading)`. -/
def m_headings (pi : α) (num_heading : Nat) : List α :=
  linspace 0 (2 * pi - 2 * pi / (num_heading : α)) num_heading

/-- The loop nest of the constructor: slot
`j * num_duration * num_heading + k * num_heading + l` of the table receives
`new Action(m_speeds[j], m_durations[k], m_headings[l])`. The loop bounds are
the lengths of the vectors read, and `linspace` returns `num_heading` samples,
so no read is past the end. -/
def fillActions (m_speeds m_durations headings : List α) (num_heading : Nat)
    (table : List (Option (Action α))) : List (Option (Action α)) :=
  let num_speed := m_speeds.length
  let num_duration := m_durations.length
  (List.range num_speed).foldl (fun table j =>
    (List.range num_duration).foldl (fun table k =>
      (List.range num_heading).foldl (fun table l =>
        table.set (j * num_duration * num_heading + k * num_heading + l)
          (some (Action.mk (m_speeds.getD j 0) (m_durations.getD k 0) (headings.getD l 0))))
        table) table) table

/-- The constructor `GenericActionSpace(m_speeds, m_durations, num_heading)`:
the table is allocated with `num_speed * num_duration * num_heading` null
slots and then filled. The sizes are held in `int` variables and multiplied
as `int`: a size that does not fit, or a product that overflows, leaves the
constructor without a defined result. -/
def construct (pi : α) (m_speeds m_durations : List α) (num_heading : Nat) :
    Outcome (GenericActionSpace α) :=
  let num_speed := m_speeds.length
  let num_duration := m_durations.length
  if fitsInt num_speed ∧ fitsInt num_duration ∧ fitsInt (num_speed * num_duration) ∧
      fitsInt (num_speed * num_duration * num_heading) then
    Outcome.ok (GenericActionSpace.mk
      (fillActions m_speeds m_durations (m_headings pi num_heading) num_heading
        (List.replicate (num_speed * num_duration * num_heading) none)))
  else Outcome.ub

/-- Modelled from the spec: `size()` is declared in the header and its
definition is not among the sources. It is the total enumerated action
count, the length of the table, returned as `int`. -/
def size (s : GenericActionSpace α) : Int := toInt s.m_actions.length

/-- The method `get_action` of `generic_action_space.cpp`:
`return m_actions[action_id];` inside a `try` block. `operator[]` never
throws, so the `catch` clause is dead code. -/
def get_action (w : Nat) (s : GenericActionSpace α) (action_id : Int) :
    Outcome (Option (Action α)) :=
  vecIndex s.m_actions (toSizeT w action_id)

/-- Modelled from the spec: the member `m_direction` read by
`generic_action_space.cpp` is not declared in the header among the sources.
It is the unit-circle projection `(cos heading, sin heading)` of the heading;
`cos` and `sin` are parameters. -/
def m_direction (cos sin : α → α) (a : Action α) : α × α :=
  (cos a.m_heading, sin a.m_heading)

/-- The method `action_similarity` of `generic_action_space.cpp`: the square
root of the sum of the squared differences of speed, duration and the two
direction components, every action being read as `m_actions[id]->...` with
no check of the id. -/
def action_similarity (w : Nat) (sqrt cos sin : α → α) (s : GenericActionSpace α)
    (action_id1 action_id2 : Int) : Outcome α := do
  let p1 ← vecIndex s.m_actions (toSizeT w action_id1)
  let a1 ← deref p1
  let p2 ← vecIndex s.m_actions (toSizeT w action_id2)
  let a2 ← deref p2
  pure (sqrt ((a1.m_speed - a2.m_speed) ^ 2 + (a1.m_duration - a2.m_duration) ^ 2 +
    ((m_direction cos sin a1).1 - (m_direction cos sin a2).1) ^ 2 +
    ((m_direction cos sin a1).2 - (m_direction cos sin a2).2) ^ 2))

end GenericActionSpace

/-! ## Two small spaces over the rationals -/

/-- The table of the `ObjectOrientedActionSpace` with `speeds = {1}`,
`ratios = {2, 3}`, `edge_offset = 10`, `num_offset = 1`, the sides being
written with `22 / 7` for `π`. -/
def exampleObjectSpace : ObjectOrientedActionSpace ℚ :=
  ObjectOrientedActionSpace.mk [1] [2, 3] 1 60 10
    [GenericAction.mk 1 0 2 0, GenericAction.mk 1 0 3 (11 / 7),
      GenericAction.mk 1 0 2 (22 / 7), GenericAction.mk 1 0 3 (33 / 7)]

/-- The table of the `GenericActionSpace` with `speeds = {1/2, 1}`,
`durations = {1}`, `num_heading = 4`, the headings being written with
`22 / 7` for `π`. -/
def exampleGenericSpace : GenericActionSpace ℚ :=
  GenericActionSpace.mk
    [some (GenericActionSpace.Action.mk (1 / 2) 1 0),
      some (GenericActionSpace.Action.mk (1 / 2) 1 (11 / 7)),
      some (GenericActionSpace.Action.mk (1 / 2) 1 (22 / 7)),
      some (GenericActionSpace.Action.mk (1 / 2) 1 (33 / 7)),
      some (GenericActionSpace.Action.mk 1 1 0),
      some (GenericActionSpace.Action.mk 1 1 (11 / 7)),
      some (GenericActionSpace.Action.mk 1 1 (22 / 7)),
      some (GenericActionSpace.Action.mk 1 1 (33 / 7))]

end Defs

/-! ## Machine integers: conversion lemmas -/

theorem toSizeT_of_nonneg (w : Nat) (hw : 32 ≤ w) (i : Int) (h0 : 0 ≤ i)
    (h1 : i < 2147483648) : toSizeT w i = i.toNat := by
  have hpow : (2 : Int) ^ 31 < 2 ^ w :=
    pow_lt_pow_right₀ (by norm_num) (by omega)
  have h2 : i < 2 ^ w := lt_trans (by norm_num at hpow ⊢; exact h1) hpow
  unfold toSizeT
  rw [Int.emod_eq_of_lt h0 h2]

theorem toInt_of_fitsInt (n : Nat) (h : fitsInt n) : toInt n = (n : Int) := by
  unfold fitsInt at h
  unfold toInt
  omega

theorem toSizeT_of_neg (w : Nat) (hw : 32 ≤ w) (i : Int) (h0 : i < 0)
    (h1 : -2147483648 ≤ i) : 2147483648 ≤ toSizeT w i := by
  have hpow : (2 : Int) ^ 32 ≤ 2 ^ w := pow_le_pow_right₀ (by norm_num) hw
  have hP : (4294967296 : Int) ≤ 2 ^ w := by norm_num at hpow ⊢; exact hpow
  have hmod : i % 2 ^ w = i + 2 ^ w := by
    have h := Int.add_mul_emod_self (a := i) (b := 1) (c := 2 ^ w)
    rw [one_mul] at h
    rw [← h]
    exact Int.emod_eq_of_lt (by omega) (by omega)
  unfold toSizeT
  rw [hmod]
  omega

theorem vecIndex_ub_of_invalid {β : Type} (w : Nat) (hw : 32 ≤ w) (v : List β)
    (hlen : fitsInt v.length) (i : Int) (hi : isInt i)
    (hbad : ¬ (0 ≤ i ∧ i < (v.length : Int))) :
    vecIndex v (toSizeT w i) = Outcome.ub := by
  have hge : v.length ≤ toSizeT w i := by
    unfold fitsInt at hlen
    rcases lt_or_le i 0 with hneg | hnn
    · have := toSizeT_of_neg w hw i hneg hi.1
      omega
    · rw [toSizeT_of_nonneg w hw i hnn hi.2]
      omega
  unfold vecIndex
  rw [List.getElem?_eq_none hge]

section Proofs

variable {α : Type} [Field α] [DecidableEq α]

/-! ## Loops over lists -/

theorem Outcome.ok_bind {β γ : Type} (v : β) (f : β → Outcome γ) :
    (Outcome.ok v >>= f) = f v := rfl

theorem Outcome.pure_eq_ok {β : Type} (v : β) : (pure v : Outcome β) = Outcome.ok v := rfl

theorem foldl_push_eq_append_map {ι β : Type} (f : ι → β) (xs : List ι) (acc : List β) :
    xs.foldl (fun acc x => acc ++ [f x]) acc = acc ++ xs.map f := by
  induction xs generalizing acc with
  | nil => simp
  | cons x xs ih => simp [ih]

theorem foldl_append_eq_append_flatMap {ι β : Type} (g : ι → List β) (xs : List ι)
    (acc : List β) :
    xs.foldl (fun acc x => acc ++ g x) acc = acc ++ xs.flatMap g := by
  induction xs generalizing acc with
  | nil => simp
  | cons x xs ih => simp [ih, List.flatMap_cons]

theorem foldl_flatMap_eq {ι γ β : Type} (xs : List ι) (f : ι → List γ) (g : β → γ → β)
    (b : β) :
    (xs.flatMap f).foldl g b = xs.foldl (fun b x => (f x).foldl g b) b := by
  induction xs generalizing b with
  | nil => simp
  | cons x xs ih => simp [List.flatMap_cons, List.foldl_append, ih]

theorem length_flatMap_uniform {ι β : Type} (xs : List ι) (f : ι → List β) (m : Nat)
    (hm : ∀ x ∈ xs, (f x).length = m) : (xs.flatMap f).length = xs.length * m := by
  induction xs with
  | nil => simp
  | cons x xs ih =>
    rw [List.flatMap_cons, List.length_append, hm x (List.mem_cons_self x xs),
      ih (fun y hy => hm y (List.mem_cons_of_mem x hy)), List.length_cons]
    ring

theorem getElem?_flatMap_uniform {ι β : Type} (xs : List ι) (f : ι → List β) (m : Nat)
    (hm : ∀ x ∈ xs, (f x).length = m) (i r : Nat) (hr : r < m) :
    (xs.flatMap f)[i * m + r]? = (xs[i]?).bind (fun x => (f x)[r]?) := by
  induction xs generalizing i with
  | nil => simp
  | cons x xs ih =>
    have hx : (f x).length = m := hm x (List.mem_cons_self x xs)
    have hxs : ∀ y ∈ xs, (f y).length = m := fun y hy => hm y (List.mem_cons_of_mem x hy)
    rw [List.flatMap_cons]
    cases i with
    | zero =>
      rw [List.getElem?_append_left (by omega)]
      simp
    | succ i =>
      have hge : (f x).length ≤ (i + 1) * m + r := by
        rw [hx, Nat.succ_mul]; omega
      rw [List.getElem?_append_right hge]
      have hidx : (i + 1) * m + r - (f x).length = i * m + r := by
        rw [hx, Nat.succ_mul]; omega
      rw [hidx, ih hxs i]
      simp

namespace ObjectOrientedActionSpace

/-! ## ObjectOrientedActionSpace: validity and lookup -/

theorem is_valid_action_id_eq_true_iff (w : Nat) (hw : 32 ≤ w) (s : ObjectOrientedActionSpace α)
    (hlen : fitsInt s.m_actions.length) (id : Int) (hid : isInt id) :
    is_valid_action_id w s id = true ↔ 0 ≤ id ∧ id < size s := by
  unfold size
  rw [toInt_of_fitsInt _ hlen]
  unfold is_valid_action_id
  simp only [Bool.and_eq_true, decide_eq_true_eq, ge_iff_le]
  constructor
  · rintro ⟨h1, h0⟩
    rw [toSizeT_of_nonneg w hw id h0 hid.2] at h1
    exact ⟨h0, by omega⟩
  · rintro ⟨h0, h1⟩
    rw [toSizeT_of_nonneg w hw id h0 hid.2]
    exact ⟨by omega, h0⟩

/-- C1. For every space whose table length fits in `int` (as every
constructed table does), every `std::size_t` width `w ≥ 32` and every 32-bit
signed `id`: `is_valid_action_id(id)` is true if and only if
`0 <= id < size()`; and it is false for every negative `id`, whatever the
unsigned comparison `id < m_actions.size()` gives. -/
theorem C1_is_valid_action_id_iff (w : Nat) (hw : 32 ≤ w) (s : ObjectOrientedActionSpace α)
    (hlen : fitsInt s.m_actions.length) (id : Int) (hid : isInt id) :
    (is_valid_action_id w s id = true ↔ 0 ≤ id ∧ id < size s) ∧
    (id < 0 → is_valid_action_id w s id = false) := by
  refine ⟨is_valid_action_id_eq_true_iff w hw s hlen id hid, ?_⟩
  intro hneg
  unfold is_valid_action_id
  have : ¬ (id ≥ 0) := by omega
  simp [this]

theorem is_valid_action_id_getElem (w : Nat) (hw : 32 ≤ w) (s : ObjectOrientedActionSpace α)
    (id : Int) (hid : isInt id) (hv : is_valid_action_id w s id = true) :
    ∃ a, s.m_actions[id.toNat]? = some a ∧
      vecIndex s.m_actions (toSizeT w id) = Outcome.ok a := by
  unfold is_valid_action_id at hv
  simp only [Bool.and_eq_true, decide_eq_true_eq, ge_iff_le] at hv
  obtain ⟨h1, h0⟩ := hv
  rw [toSizeT_of_nonneg w hw id h0 hid.2] at h1 ⊢
  refine ⟨s.m_actions[id.toNat], List.getElem?_eq_getElem h1, ?_⟩
  unfold vecIndex
  rw [List.getElem?_eq_getElem h1]

theorem get_action_of_valid (w : Nat) (hw : 32 ≤ w) (s : ObjectOrientedActionSpace α)
    (id : Int) (hid : isInt id) (hv : is_valid_action_id w s id = true) :
    ∃ a, s.m_actions[id.toNat]? = some a ∧ get_action w s id = Outcome.ok (some a) := by
  obtain ⟨a, ha, hidx⟩ := is_valid_action_id_getElem w hw s id hid hv
  refine ⟨a, ha, ?_⟩
  unfold get_action
  rw [hv, hidx]
  rfl

theorem get_action_of_invalid (w : Nat) (s : ObjectOrientedActionSpace α)
    (id : Int) (hv : is_valid_action_id w s id = false) :
    get_action w s id = Outcome.ok none := by
  unfold get_action
  rw [hv]
  rfl

/-- C2. For every space whose table length fits in `int`, every
`std::size_t` width `w ≥ 32` and every 32-bit signed `id`: when
`0 <= id < size()`, `get_action(id)` returns the (non-null) action stored at
index `id`; for every other `id` it returns the null pointer; and in no case
is the table indexed past its end (the result is never undefined). -/
theorem C2_get_action (w : Nat) (hw : 32 ≤ w) (s : ObjectOrientedActionSpace α)
    (hlen : fitsInt s.m_actions.length) (id : Int) (hid : isInt id) :
    ((0 ≤ id ∧ id < size s) →
      ∃ a, s.m_actions[id.toNat]? = some a ∧ get_action w s id = Outcome.ok (some a)) ∧
    (¬ (0 ≤ id ∧ id < size s) → get_action w s id = Outcome.ok none) ∧
    get_action w s id ≠ Outcome.ub := by
  have hiff := is_valid_action_id_eq_true_iff w hw s hlen id hid
  have h1 : (0 ≤ id ∧ id < size s) →
      ∃ a, s.m_actions[id.toNat]? = some a ∧ get_action w s id = Outcome.ok (some a) :=
    fun h => get_action_of_valid w hw s id hid (hiff.mpr h)
  have h2 : ¬ (0 ≤ id ∧ id < size s) → get_action w s id = Outcome.ok none := by
    intro h
    apply get_action_of_invalid
    cases hv : is_valid_action_id w s id with
    | false => rfl
    | true => exact absurd (hiff.mp hv) h
  refine ⟨h1, h2, ?_⟩
  by_cases h : 0 ≤ id ∧ id < size s
  · obtain ⟨a, _, ha⟩ := h1 h
    rw [ha]
    exact fun hc => Outcome.noConfusion hc
  · rw [h2 h]
    exact fun hc => Outcome.noConfusion hc

/-! ## ObjectOrientedActionSpace: similarity -/

theorem euclidean_distance_three (sqrt : α → α) (a b c x y z : α) :
    euclidean_distance sqrt [a, b, c] [x, y, z] =
      sqrt ((a - x) ^ 2 + (b - y) ^ 2 + (c - z) ^ 2) := by
  unfold euclidean_distance
  congr 1
  simp only [List.zipWith_cons_cons, List.zipWith_nil_right, List.sum_cons, List.sum_nil]
  ring

theorem action_similarity_of_valid (w : Nat) (hw : 32 ≤ w) (sqrt : α → α)
    (s : ObjectOrientedActionSpace α) (id1 id2 : Int) (hid1 : isInt id1) (hid2 : isInt id2)
    (similarity : α)
    (hv1 : is_valid_action_id w s id1 = true) (hv2 : is_valid_action_id w s id2 = true) :
    ∃ a1 a2, s.m_actions[id1.toNat]? = some a1 ∧ s.m_actions[id2.toNat]? = some a2 ∧
      action_similarity w sqrt s id1 id2 similarity =
        Outcome.ok (true, sqrt ((a1.m_speed - a2.m_speed) ^ 2 +
          (a1.m_edge_offset - a2.m_edge_offset) ^ 2 +
          (a1.m_aspect_ratio - a2.m_aspect_ratio) ^ 2)) := by
  obtain ⟨a1, ha1, hidx1⟩ := is_valid_action_id_getElem w hw s id1 hid1 hv1
  obtain ⟨a2, ha2, hidx2⟩ := is_valid_action_id_getElem w hw s id2 hid2 hv2
  refine ⟨a1, a2, ha1, ha2, ?_⟩
  unfold action_similarity
  rw [hv1, hv2, hidx1, hidx2]
  show Outcome.ok (true, euclidean_distance sqrt _ _) = _
  rw [euclidean_distance_three]

theorem action_similarity_of_invalid (w : Nat) (sqrt : α → α)
    (s : ObjectOrientedActionSpace α) (id1 id2 : Int) (similarity : α)
    (hv : is_valid_action_id w s id1 = false ∨ is_valid_action_id w s id2 = false) :
    action_similarity w sqrt s id1 id2 similarity = Outcome.ok (false, similarity) := by
  unfold action_similarity
  rcases hv with hv | hv <;> simp [hv]

/-- C10. For every space whose table length fits in `int`, every
`std::size_t` width `w ≥ 32`, all 32-bit signed `id1`, `id2` and every value
`out` held by the output location: if one of the ids is outside
`[0, size())`, `action_similarity` returns `false` and leaves `out` as it was
(the table is not read, the result is defined); if both are inside, it
returns `true` and stores the Euclidean distance
`sqrt(Δspeed² + Δedge_offset_ratio² + Δaspect_ratio²)` of the two stored
actions; hence it returns `false` if and only if one of the ids is outside
`[0, size())`. -/
theorem C10_action_similarity (w : Nat) (hw : 32 ≤ w) (sqrt : α → α)
    (s : ObjectOrientedActionSpace α) (hlen : fitsInt s.m_actions.length)
    (id1 id2 : Int) (hid1 : isInt id1) (hid2 : isInt id2) (out : α) :
    ((¬ (0 ≤ id1 ∧ id1 < size s) ∨ ¬ (0 ≤ id2 ∧ id2 < size s)) →
      action_similarity w sqrt s id1 id2 out = Outcome.ok (false, out)) ∧
    (((0 ≤ id1 ∧ id1 < size s) ∧ (0 ≤ id2 ∧ id2 < size s)) →
      ∃ a1 a2, s.m_actions[id1.toNat]? = some a1 ∧ s.m_actions[id2.toNat]? = some a2 ∧
        action_similarity w sqrt s id1 id2 out =
          Outcome.ok (true, sqrt ((a1.m_speed - a2.m_speed) ^ 2 +
            (a1.m_edge_offset - a2.m_edge_offset) ^ 2 +
            (a1.m_aspect_ratio - a2.m_aspect_ratio) ^ 2))) ∧
    ((∃ r, action_similarity w sqrt s id1 id2 out = Outcome.ok (false, r)) ↔
      (¬ (0 ≤ id1 ∧ id1 < size s) ∨ ¬ (0 ≤ id2 ∧ id2 < size s))) := by
  have hiff1 := is_valid_action_id_eq_true_iff w hw s hlen id1 hid1
  have hiff2 := is_valid_action_id_eq_true_iff w hw s hlen id2 hid2
  have hbad : (¬ (0 ≤ id1 ∧ id1 < size s) ∨ ¬ (0 ≤ id2 ∧ id2 < size s)) →
      action_similarity w sqrt s id1 id2 out = Outcome.ok (false, out) := by
    intro h
    apply action_similarity_of_invalid
    rcases h with h | h
    · left
      cases hv : is_valid_action_id w s id1 with
      | false => rfl
      | true => exact absurd (hiff1.mp hv) h
    · right
      cases hv : is_valid_action_id w s id2 with
      | false => rfl
      | true => exact absurd (hiff2.mp hv) h
  have hgood : ((0 ≤ id1 ∧ id1 < size s) ∧ (0 ≤ id2 ∧ id2 < size s)) →
      ∃ a1 a2, s.m_actions[id1.toNat]? = some a1 ∧ s.m_actions[id2.toNat]? = some a2 ∧
        action_similarity w sqrt s id1 id2 out =
          Outcome.ok (true, sqrt ((a1.m_speed - a2.m_speed) ^ 2 +
            (a1.m_edge_offset - a2.m_edge_offset) ^ 2 +
            (a1.m_aspect_ratio - a2.m_aspect_ratio) ^ 2)) :=
    fun h => action_similarity_of_valid w hw sqrt s id1 id2 hid1 hid2 out
      (hiff1.mpr h.1) (hiff2.mpr h.2)
  refine ⟨hbad, hgood, ?_, fun h => ⟨out, hbad h⟩⟩
  rintro ⟨r, hr⟩
  by_contra hcon
  push_neg at hcon
  obtain ⟨a1, a2, _, _, heq⟩ := hgood hcon
  rw [heq] at hr
  injection hr with hr
  injection hr with hr _
  exact Bool.noConfusion hr

end ObjectOrientedActionSpace

/-! ## Row-major id arithmetic -/

theorem encode_eq (nd nh j k l : Nat) :
    j * nd * nh + k * nh + l = l + nh * (j * nd + k) := by ring

theorem encode_mod (nd nh j k l : Nat) (hl : l < nh) :
    (j * nd * nh + k * nh + l) % nh = l := by
  rw [encode_eq, Nat.add_mul_mod_self_left, Nat.mod_eq_of_lt hl]

theorem encode_div (nd nh j k l : Nat) (hl : l < nh) :
    (j * nd * nh + k * nh + l) / nh = j * nd + k := by
  rw [encode_eq, Nat.add_mul_div_left _ _ (by omega), Nat.div_eq_of_lt hl, Nat.zero_add]

theorem encode_div_mod (nd nh j k l : Nat) (hk : k < nd) (hl : l < nh) :
    (j * nd * nh + k * nh + l) / nh % nd = k := by
  rw [encode_div nd nh j k l hl, Nat.add_comm, Nat.mul_comm, Nat.add_mul_mod_self_left,
    Nat.mod_eq_of_lt hk]

theorem encode_div_div (nd nh j k l : Nat) (hk : k < nd) (hl : l < nh) :
    (j * nd * nh + k * nh + l) / (nd * nh) = j := by
  rw [Nat.mul_comm nd nh, ← Nat.div_div_eq_div_mul, encode_div nd nh j k l hl, Nat.add_comm,
    Nat.mul_comm, Nat.add_mul_div_left _ _ (by omega), Nat.div_eq_of_lt hk, Nat.zero_add]

theorem encode_lt (ns nd nh j k l : Nat) (hj : j < ns) (hk : k < nd) (hl : l < nh) :
    j * nd * nh + k * nh + l < ns * nd * nh := by
  have h1 : j * nd + k + 1 ≤ ns * nd := by
    calc j * nd + k + 1 ≤ j * nd + nd := by omega
      _ = (j + 1) * nd := by ring
      _ ≤ ns * nd := Nat.mul_le_mul_right _ hj
  calc j * nd * nh + k * nh + l < (j * nd + k + 1) * nh := by
        have : (j * nd + k + 1) * nh = j * nd * nh + k * nh + nh := by ring
        omega
    _ ≤ ns * nd * nh := Nat.mul_le_mul_right _ h1

theorem encode_injective (nd nh j k l j' k' l' : Nat) (hk : k < nd) (hl : l < nh)
    (hk' : k' < nd) (hl' : l' < nh)
    (h : j * nd * nh + k * nh + l = j' * nd * nh + k' * nh + l') :
    j = j' ∧ k = k' ∧ l = l' := by
  refine ⟨?_, ?_, ?_⟩
  · rw [← encode_div_div nd nh j k l hk hl, h, encode_div_div nd nh j' k' l' hk' hl']
  · rw [← encode_div_mod nd nh j k l hk hl, h, encode_div_mod nd nh j' k' l' hk' hl']
  · rw [← encode_mod nd nh j k l hl, h, encode_mod nd nh j' k' l' hl']

theorem decode_spec (ns nd nh id : Nat) (hid : id < ns * nd * nh) :
    id / (nd * nh) < ns ∧ id / nh % nd < nd ∧ id % nh < nh ∧
      id / (nd * nh) * nd * nh + id / nh % nd * nh + id % nh = id := by
  have hnh : 0 < nh := by
    rcases Nat.eq_zero_or_pos nh with h | h
    · rw [h] at hid; simp at hid
    · exact h
  have hnd : 0 < nd := by
    rcases Nat.eq_zero_or_pos nd with h | h
    · rw [h] at hid; simp at hid
    · exact h
  have hj : id / (nd * nh) < ns := by
    rw [Nat.div_lt_iff_lt_mul (Nat.mul_pos hnd hnh)]
    calc id < ns * nd * nh := hid
      _ = ns * (nd * nh) := by ring
  refine ⟨hj, Nat.mod_lt _ hnd, Nat.mod_lt _ hnh, ?_⟩
  have h1 : id / (nd * nh) = id / nh / nd := by
    rw [Nat.mul_comm nd nh, Nat.div_div_eq_div_mul]
  have h2 := Nat.div_add_mod id nh
  have h3 := Nat.div_add_mod (id / nh) nd
  calc id / (nd * nh) * nd * nh + id / nh % nd * nh + id % nh
      = nh * (nd * (id / nh / nd) + id / nh % nd) + id % nh := by rw [h1]; ring
    _ = id := by rw [h3, h2]

/-! ## Tables filled by a sequence of writes -/

theorem foldl_set_length {β : Type} (ws : List (Nat × β)) (t : List β) :
    (ws.foldl (fun t p => t.set p.1 p.2) t).length = t.length := by
  induction ws generalizing t with
  | nil => rfl
  | cons p ws ih => rw [List.foldl_cons, ih, List.length_set]

theorem foldl_set_getElem?_stable {β : Type} (ws : List (Nat × β)) (t : List β) (i : Nat)
    (a : β) (hi : t[i]? = some a) (hall : ∀ p ∈ ws, p.1 = i → p.2 = a) :
    (ws.foldl (fun t p => t.set p.1 p.2) t)[i]? = some a := by
  induction ws generalizing t with
  | nil => exact hi
  | cons p ws ih =>
    rw [List.foldl_cons]
    apply ih
    · rw [List.getElem?_set]
      split
      · next heq =>
        have hlt : i < t.length := by
          rcases Nat.lt_or_ge i t.length with h | h
          · exact h
          · rw [List.getElem?_eq_none h] at hi; exact Option.noConfusion hi
        rw [heq, if_pos hlt, hall p (List.mem_cons_self p ws) heq]
      · exact hi
    · exact fun q hq => hall q (List.mem_cons_of_mem p hq)

theorem foldl_set_getElem?_of_mem {β : Type} (ws : List (Nat × β)) (t : List β) (i : Nat)
    (a : β) (hi : i < t.length) (hmem : (i, a) ∈ ws) (hall : ∀ p ∈ ws, p.1 = i → p.2 = a) :
    (ws.foldl (fun t p => t.set p.1 p.2) t)[i]? = some a := by
  induction ws generalizing t with
  | nil => exact absurd hmem (List.not_mem_nil _)
  | cons p ws ih =>
    rw [List.foldl_cons]
    rcases List.mem_cons.mp hmem with heq | htail
    · apply foldl_set_getElem?_stable
      · rw [← heq, List.getElem?_set, if_pos rfl, if_pos hi]
      · exact fun q hq => hall q (List.mem_cons_of_mem p hq)
    · apply ih
      · rw [List.length_set]; exact hi
      · exact htail
      · exact fun q hq => hall q (List.mem_cons_of_mem p hq)

theorem foldl_set_getElem?_untouched {β : Type} (ws : List (Nat × β)) (t : List β) (i : Nat)
    (hall : ∀ p ∈ ws, p.1 ≠ i) :
    (ws.foldl (fun t p => t.set p.1 p.2) t)[i]? = t[i]? := by
  induction ws generalizing t with
  | nil => rfl
  | cons p ws ih =>
    rw [List.foldl_cons, ih _ (fun q hq => hall q (List.mem_cons_of_mem p hq)),
      List.getElem?_set, if_neg (hall p (List.mem_cons_self p ws))]

/-! ## ObjectOrientedActionSpace: the constructor -/

theorem linspace_length (a b : α) (n : Nat) : (linspace a b n).length = n := by
  simp only [linspace, List.length_map, List.length_range]

theorem linspace_getElem? (a b : α) (n l : Nat) (hl : l < n) :
    (linspace a b n)[l]? = some (a + (l : α) * (b - a) / ((n : α) - 1)) := by
  simp only [linspace, List.getElem?_map, List.getElem?_range hl, Option.map_some']

namespace ObjectOrientedActionSpace

theorem cube_offsets_length (edge_offset : α) (num_offset : Nat) :
    (cube_offsets edge_offset num_offset).length = num_offset := by
  unfold cube_offsets
  split
  · next h => simp [h]
  · exact linspace_length _ _ _

theorem pushSide_eq (speeds : List α) (edge_offset : α) (offsets : List α)
    (ratio heading_offset : α) (acts : List (GenericAction α)) :
    pushSide speeds edge_offset offsets ratio heading_offset acts =
      acts ++ offsets.flatMap (fun c => speeds.map (fun v =>
        GenericAction.mk v (-c / edge_offset) ratio heading_offset)) := by
  unfold pushSide
  simp only [foldl_push_eq_append_map]
  rw [foldl_append_eq_append_flatMap]

theorem sideRatio_cons_cons (pi r0 r1 : α) (rest : List α) (heading_offset : α) :
    sideRatio pi (r0 :: r1 :: rest) heading_offset =
      Outcome.ok (if heading_offset = FRONT ∨ heading_offset = BACK pi then r0 else r1) := by
  unfold sideRatio vecIndex
  split <;> simp

theorem buildActions_eq (pi : α) (speeds : List α) (r0 r1 : α) (rest : List α)
    (edge_offset : α) (offsets : List α) :
    buildActions pi speeds (r0 :: r1 :: rest) edge_offset offsets =
      Outcome.ok ((sides pi).flatMap (fun h => offsets.flatMap (fun c => speeds.map (fun v =>
        GenericAction.mk v (-c / edge_offset)
          (if h = FRONT ∨ h = BACK pi then r0 else r1) h)))) := by
  unfold buildActions sides
  simp only [List.foldlM_cons, List.foldlM_nil, sideRatio_cons_cons, Outcome.ok_bind,
    Outcome.pure_eq_ok, pushSide_eq, List.flatMap_cons, List.flatMap_nil, List.nil_append,
    List.append_nil, List.append_assoc]

theorem construct_eq (pi : α) (speeds : List α) (r0 r1 : α) (rest : List α)
    (edge_offset : α) (num_offset : Nat)
    (hfit : fitsInt (4 * (num_offset * speeds.length))) :
    ∃ acts : List (GenericAction α),
      construct pi speeds (r0 :: r1 :: rest) edge_offset num_offset =
        Outcome.ok (ObjectOrientedActionSpace.mk speeds (r0 :: r1 :: rest) num_offset 60
          edge_offset acts) ∧
      acts.length = 4 * (num_offset * speeds.length) ∧
      ∀ s o v : Nat, o < num_offset → v < speeds.length →
        acts[s * (num_offset * speeds.length) + (o * speeds.length + v)]? =
          ((sides pi)[s]?).bind (fun h =>
            ((cube_offsets edge_offset num_offset)[o]?).bind (fun c =>
              (speeds[v]?).map (fun x => GenericAction.mk x (-c / edge_offset)
                (if h = FRONT ∨ h = BACK pi then r0 else r1) h))) := by
  have hblock : ∀ h ∈ sides pi,
      ((cube_offsets edge_offset num_offset).flatMap (fun c => speeds.map (fun v =>
        GenericAction.mk v (-c / edge_offset)
          (if h = FRONT ∨ h = BACK pi then r0 else r1) h))).length =
        num_offset * speeds.length := by
    intro h _
    rw [length_flatMap_uniform _ _ speeds.length (fun c _ => by simp), cube_offsets_length]
  have hlen : ((sides pi).flatMap (fun h =>
      (cube_offsets edge_offset num_offset).flatMap (fun c => speeds.map (fun v =>
        GenericAction.mk v (-c / edge_offset)
          (if h = FRONT ∨ h = BACK pi then r0 else r1) h)))).length =
        4 * (num_offset * speeds.length) := by
    rw [length_flatMap_uniform _ _ _ hblock]
    rfl
  refine ⟨_, ?_, hlen, ?_⟩
  · unfold construct
    rw [buildActions_eq, Outcome.ok_bind, if_pos (by rw [hlen]; exact hfit)]
    rfl
  · intro s o v ho hv
    have hov : o * speeds.length + v < num_offset * speeds.length := by
      calc o * speeds.length + v < o * speeds.length + speeds.length := by omega
        _ = (o + 1) * speeds.length := by ring
        _ ≤ num_offset * speeds.length := Nat.mul_le_mul_right _ ho
    rw [getElem?_flatMap_uniform _ _ _ hblock s _ hov]
    congr 1
    funext h
    rw [getElem?_flatMap_uniform _ _ speeds.length (fun c _ => by simp) o v hv]
    congr 1
    funext c
    simp

theorem construct_fitsInt (pi : α) (speeds ratios : List α) (edge_offset : α)
    (num_offset : Nat) (sp : ObjectOrientedActionSpace α)
    (h : construct pi speeds ratios edge_offset num_offset = Outcome.ok sp) :
    fitsInt sp.m_actions.length := by
  unfold construct at h
  cases hb : buildActions pi speeds ratios edge_offset (cube_offsets edge_offset num_offset) with
  | ub =>
    rw [hb] at h
    exact Outcome.noConfusion h
  | ok acts =>
    rw [hb, Outcome.ok_bind] at h
    by_cases hf : fitsInt acts.length
    · rw [if_pos hf] at h
      have h2 := Outcome.ok.inj h
      rw [← h2]
      exact hf
    · rw [if_neg hf] at h
      exact Outcome.noConfusion h

/-- C5. For every speed list, two-element ratio list, non-zero `edge_offset`
and `num_offset >= 1` (the count `num_speed * num_offset * 4` fitting in
`int`), the constructor succeeds and `size()` of the constructed space
equals `num_speed * num_offset * 4`. -/
theorem C5_size_eq_product (pi : α) (speeds : List α) (r0 r1 edge_offset : α)
    (num_offset : Nat) (_he : edge_offset ≠ 0) (_hn : 1 ≤ num_offset)
    (hfit : fitsInt (speeds.length * num_offset * 4)) :
    ∃ sp, construct pi speeds [r0, r1] edge_offset num_offset = Outcome.ok sp ∧
      size sp = ((speeds.length * num_offset * 4 : Nat) : Int) := by
  have hfit2 : fitsInt (4 * (num_offset * speeds.length)) := by
    have : 4 * (num_offset * speeds.length) = speeds.length * num_offset * 4 := by ring
    rw [this]; exact hfit
  obtain ⟨acts, hc, hlen, _⟩ := construct_eq pi speeds r0 r1 [] edge_offset num_offset hfit2
  refine ⟨_, hc, ?_⟩
  unfold size
  have hl : acts.length = speeds.length * num_offset * 4 := by rw [hlen]; ring
  show toInt acts.length = _
  rw [hl, toInt_of_fitsInt _ hfit]

/-- C9. The table of a constructed `ObjectOrientedActionSpace` enumerates
side, then cube offset, then speed. With `sides = [0, π/2, π, 3π/2]`: whenever
the ratio list starts with `r0, r1` and the action count fits in `int`, the
constructor succeeds and for all `s < 4`, `o < num_offset`,
`v < num_speed` the entry at `s * num_offset * num_speed + o * num_speed + v`
is `GenericAction(speeds[v], -cube_offsets[o] / edge_offset, ratio, sides[s])`
with `ratio = r0` if `sides[s]` is `FRONT` or `BACK` and `r1` otherwise. In
particular `speeds = {1}`, `ratios = {2, 3}`, `edge_offset = 10`,
`num_offset = 1` gives `size() == 4`, and entry 0 is the `FRONT` action with
`edge_offset_ratio == 0` and `aspect_ratio == 2`. -/
theorem C9_enumeration (pi : α) (speeds : List α) (r0 r1 : α) (rest : List α)
    (edge_offset : α) (num_offset : Nat)
    (hfit : fitsInt (4 * (num_offset * speeds.length))) :
    sides pi = [0, pi / 2, pi, 3 * pi / 2] ∧
    (∃ sp, construct pi speeds (r0 :: r1 :: rest) edge_offset num_offset = Outcome.ok sp ∧
        ∀ s o v : Nat, s < 4 → o < num_offset → v < speeds.length →
          ∃ side off speed, (sides pi)[s]? = some side ∧
            (cube_offsets edge_offset num_offset)[o]? = some off ∧
            speeds[v]? = some speed ∧
            sp.m_actions[s * num_offset * speeds.length + o * speeds.length + v]? =
              some (GenericAction.mk speed (-off / edge_offset)
                (if side = FRONT ∨ side = BACK pi then r0 else r1) side)) ∧
    (∃ sp, construct pi [1] [2, 3] 10 1 = Outcome.ok sp ∧ size sp = 4 ∧
      ∃ a, sp.m_actions[0]? = some a ∧ a.m_heading_offset = FRONT ∧
        a.m_edge_offset = 0 ∧ a.m_aspect_ratio = 2) := by
  refine ⟨rfl, ?_, ?_⟩
  · obtain ⟨acts, hc, _, hidx⟩ :=
      construct_eq pi speeds r0 r1 rest edge_offset num_offset hfit
    refine ⟨_, hc, ?_⟩
    intro s o v hs ho hv
    have hside : s < (sides pi).length := hs
    have hoff : o < (cube_offsets edge_offset num_offset).length := by
      rw [cube_offsets_length]; exact ho
    refine ⟨(sides pi)[s], (cube_offsets edge_offset num_offset)[o], speeds[v],
      List.getElem?_eq_getElem hside, List.getElem?_eq_getElem hoff,
      List.getElem?_eq_getElem hv, ?_⟩
    have hi : s * num_offset * speeds.length + o * speeds.length + v =
        s * (num_offset * speeds.length) + (o * speeds.length + v) := by ring
    show acts[_]? = _
    rw [hi, hidx s o v ho hv, List.getElem?_eq_getElem hside,
      List.getElem?_eq_getElem hoff, List.getElem?_eq_getElem hv]
    rfl
  · obtain ⟨acts, hc, hlen, hidx⟩ :=
      construct_eq pi ([1] : List α) 2 3 [] 10 1 (by show fitsInt 4; decide)
    refine ⟨_, hc, ?_, ?_⟩
    · show toInt acts.length = 4
      have h4 : acts.length = 4 := hlen
      rw [h4, toInt_of_fitsInt 4 (by decide)]
      rfl
    · have h0 := hidx 0 0 0 (by decide) (by simp)
      refine ⟨GenericAction.mk 1 0 2 FRONT, ?_, rfl, rfl, rfl⟩
      show acts[0]? = _
      simpa [sides, cube_offsets] using h0

end ObjectOrientedActionSpace

/-! ## GenericActionSpace: the constructor -/

namespace GenericActionSpace

theorem fillActions_eq_foldl (speeds durations headings : List α) (nh : Nat)
    (table : List (Option (Action α))) :
    fillActions speeds durations headings nh table =
      ((List.range speeds.length).flatMap (fun j =>
        (List.range durations.length).flatMap (fun k =>
          (List.range nh).map (fun l =>
            (j * durations.length * nh + k * nh + l,
              some (Action.mk (speeds.getD j 0) (durations.getD k 0)
                (headings.getD l 0))))))).foldl
        (fun t p => t.set p.1 p.2) table := by
  unfold fillActions
  simp only [foldl_flatMap_eq, List.foldl_map]

theorem fillActions_length (speeds durations headings : List α) (nh : Nat)
    (table : List (Option (Action α))) :
    (fillActions speeds durations headings nh table).length = table.length := by
  rw [fillActions_eq_foldl, foldl_set_length]

theorem fillActions_getElem? (speeds durations headings : List α) (nh : Nat)
    (table : List (Option (Action α))) (j k l : Nat) (hj : j < speeds.length)
    (hk : k < durations.length) (hl : l < nh)
    (ht : table.length = speeds.length * durations.length * nh) :
    (fillActions speeds durations headings nh table)[j * durations.length * nh + k * nh + l]? =
      some (some (Action.mk (speeds.getD j 0) (durations.getD k 0) (headings.getD l 0))) := by
  rw [fillActions_eq_foldl]
  apply foldl_set_getElem?_of_mem
  · rw [ht]; exact encode_lt _ _ _ j k l hj hk hl
  · simp only [List.mem_flatMap, List.mem_map, List.mem_range]
    exact ⟨j, hj, k, hk, l, hl, rfl⟩
  · intro p hp hpi
    simp only [List.mem_flatMap, List.mem_map, List.mem_range] at hp
    obtain ⟨j', _, k', hk', l', hl', rfl⟩ := hp
    obtain ⟨rfl, rfl, rfl⟩ := encode_injective _ _ j' k' l' j k l hk' hl' hk hl hpi
    rfl

theorem construct_ok (pi : α) (speeds durations : List α) (nh : Nat)
    (hs : fitsInt speeds.length) (hd : fitsInt durations.length)
    (hsd : fitsInt (speeds.length * durations.length))
    (hfit : fitsInt (speeds.length * durations.length * nh)) :
    construct pi speeds durations nh =
      Outcome.ok (GenericActionSpace.mk
        (fillActions speeds durations (m_headings pi nh) nh
          (List.replicate (speeds.length * durations.length * nh) none))) := by
  unfold construct
  exact if_pos ⟨hs, hd, hsd, hfit⟩

theorem fitsInt_of_le (m n : Nat) (h : m ≤ n) (hn : fitsInt n) : fitsInt m := by
  unfold fitsInt at *
  omega

theorem construct_ok_of_pos (pi : α) (speeds durations : List α) (nh : Nat)
    (hpos : 0 < speeds.length * durations.length * nh)
    (hfit : fitsInt (speeds.length * durations.length * nh)) :
    construct pi speeds durations nh =
      Outcome.ok (GenericActionSpace.mk
        (fillActions speeds durations (m_headings pi nh) nh
          (List.replicate (speeds.length * durations.length * nh) none))) := by
  have hnh : 0 < nh := Nat.pos_of_mul_pos_left hpos
  have hsd : 0 < speeds.length * durations.length := Nat.pos_of_mul_pos_right hpos
  have hd : 0 < durations.length := Nat.pos_of_mul_pos_left hsd
  have hs : 0 < speeds.length := Nat.pos_of_mul_pos_right hsd
  have h1 : speeds.length * durations.length ≤ speeds.length * durations.length * nh :=
    Nat.le_mul_of_pos_right _ hnh
  have h2 : speeds.length ≤ speeds.length * durations.length := Nat.le_mul_of_pos_right _ hd
  have h3 : durations.length ≤ speeds.length * durations.length := Nat.le_mul_of_pos_left _ hs
  exact construct_ok pi speeds durations nh
    (fitsInt_of_le _ _ (le_trans h2 h1) hfit) (fitsInt_of_le _ _ (le_trans h3 h1) hfit)
    (fitsInt_of_le _ _ h1 hfit) hfit

theorem size_mk_fillActions (speeds durations headings : List α) (nh : Nat)
    (hfit : fitsInt (speeds.length * durations.length * nh)) :
    size (GenericActionSpace.mk (fillActions speeds durations headings nh
      (List.replicate (speeds.length * durations.length * nh) none))) =
      ((speeds.length * durations.length * nh : Nat) : Int) := by
  show toInt (fillActions _ _ _ _ _).length = _
  rw [fillActions_length, List.length_replicate, toInt_of_fitsInt _ hfit]

/-- C4. For every speed list, duration list and `num_heading >= 1` whose
sizes and product fit in `int`, the constructor succeeds and `size()` of the
constructed space, the length of its action table, equals
`num_speed * num_duration * num_heading`. -/
theorem C4_size_eq_product (pi : α) (speeds durations : List α) (num_heading : Nat)
    (hnh : 1 ≤ num_heading) (hs : fitsInt speeds.length) (hd : fitsInt durations.length)
    (hfit : fitsInt (speeds.length * durations.length * num_heading)) :
    ∃ sp, construct pi speeds durations num_heading = Outcome.ok sp ∧
      sp.m_actions.length = speeds.length * durations.length * num_heading ∧
      size sp = ((speeds.length * durations.length * num_heading : Nat) : Int) := by
  have h1 : speeds.length * durations.length ≤
      speeds.length * durations.length * num_heading := Nat.le_mul_of_pos_right _ hnh
  refine ⟨_, construct_ok pi speeds durations num_heading hs hd (fitsInt_of_le _ _ h1 hfit) hfit,
    ?_, size_mk_fillActions speeds durations _ num_heading hfit⟩
  show (fillActions _ _ _ _ _).length = _
  rw [fillActions_length, List.length_replicate]

/-- C6. The id encoding of a constructed `GenericActionSpace` is row-major:
for all `j < num_speed`, `k < num_duration`, `l < num_heading` (the table
size fitting in `int`) the constructor succeeds, the slot
`j * num_duration * num_heading + k * num_heading + l` holds the action with
speed `speeds[j]`, duration `durations[k]` and heading `headings[l]`, and that
id lies in `[0, size())`. -/
theorem C6_row_major (pi : α) (speeds durations : List α) (num_heading j k l : Nat)
    (hj : j < speeds.length) (hk : k < durations.length) (hl : l < num_heading)
    (hfit : fitsInt (speeds.length * durations.length * num_heading)) :
    ∃ sp, construct pi speeds durations num_heading = Outcome.ok sp ∧
      ∃ speed duration heading, speeds[j]? = some speed ∧ durations[k]? = some duration ∧
        (m_headings pi num_heading)[l]? = some heading ∧
        sp.m_actions[j * durations.length * num_heading + k * num_heading + l]? =
          some (some (Action.mk speed duration heading)) ∧
        (0 : Int) ≤ ((j * durations.length * num_heading + k * num_heading + l : Nat) : Int) ∧
        ((j * durations.length * num_heading + k * num_heading + l : Nat) : Int) < size sp := by
  have hlt := encode_lt speeds.length durations.length num_heading j k l hj hk hl
  have hh : l < (m_headings pi num_heading).length := by
    unfold m_headings
    rw [linspace_length]
    exact hl
  refine ⟨_, construct_ok_of_pos pi speeds durations num_heading (by omega) hfit,
    speeds[j], durations[k], (m_headings pi num_heading)[l],
    List.getElem?_eq_getElem hj, List.getElem?_eq_getElem hk, List.getElem?_eq_getElem hh,
    ?_, Int.natCast_nonneg _, ?_⟩
  · show (fillActions _ _ _ _ _)[_]? = _
    rw [fillActions_getElem? speeds durations _ num_heading _ j k l hj hk hl
      (List.length_replicate _ _), List.getD_eq_getElem _ _ hj, List.getD_eq_getElem _ _ hk,
      List.getD_eq_getElem _ _ hh]
  · rw [size_mk_fillActions speeds durations _ num_heading hfit]
    exact_mod_cast hlt

/-- C7. The id arithmetic of a constructed `GenericActionSpace` is
invertible: for every `id` below `num_speed * num_duration * num_heading`
(which is `size()`), the slot `id` is filled (non-null) and its action has
heading `headings[id mod num_heading]`, duration
`durations[(id / num_heading) mod num_duration]` and speed
`speeds[id / (num_duration * num_heading)]`; exactly one triple `(j, k, l)`
of the loop ranges is encoded as `id`; and decoding the id of any triple of
the loop ranges returns the triple. -/
theorem C7_id_invertible (pi : α) (speeds durations : List α) (num_heading id : Nat)
    (hid : id < speeds.length * durations.length * num_heading)
    (hfit : fitsInt (speeds.length * durations.length * num_heading)) :
    ∃ sp, construct pi speeds durations num_heading = Outcome.ok sp ∧
      (0 ≤ (id : Int) ∧ (id : Int) < size sp) ∧
      (∃ a, sp.m_actions[id]? = some (some a) ∧
        (m_headings pi num_heading)[id % num_heading]? = some a.m_heading ∧
        durations[id / num_heading % durations.length]? = some a.m_duration ∧
        speeds[id / (durations.length * num_heading)]? = some a.m_speed) ∧
      (∃! t : Nat × Nat × Nat, t.1 < speeds.length ∧ t.2.1 < durations.length ∧
        t.2.2 < num_heading ∧
        t.1 * durations.length * num_heading + t.2.1 * num_heading + t.2.2 = id) ∧
      (∀ j k l : Nat, j < speeds.length → k < durations.length → l < num_heading →
        (j * durations.length * num_heading + k * num_heading + l) /
            (durations.length * num_heading) = j ∧
        (j * durations.length * num_heading + k * num_heading + l) / num_heading %
            durations.length = k ∧
        (j * durations.length * num_heading + k * num_heading + l) % num_heading = l) := by
  obtain ⟨hj, hk, hl, henc⟩ := decode_spec speeds.length durations.length num_heading id hid
  have hh : id % num_heading < (m_headings pi num_heading).length := by
    unfold m_headings
    rw [linspace_length]
    exact hl
  refine ⟨_, construct_ok_of_pos pi speeds durations num_heading (by omega) hfit,
    ⟨Int.natCast_nonneg _, ?_⟩, ?_, ?_, ?_⟩
  · rw [size_mk_fillActions speeds durations _ num_heading hfit]
    exact_mod_cast hid
  · refine ⟨Action.mk (speeds[id / (durations.length * num_heading)])
      (durations[id / num_heading % durations.length])
      ((m_headings pi num_heading)[id % num_heading]), ?_,
      List.getElem?_eq_getElem hh, List.getElem?_eq_getElem hk, List.getElem?_eq_getElem hj⟩
    show (fillActions _ _ _ _ _)[id]? = _
    have h := fillActions_getElem? speeds durations (m_headings pi num_heading) num_heading
      (List.replicate (speeds.length * durations.length * num_heading) none)
      _ _ _ hj hk hl (List.length_replicate _ _)
    rw [henc, List.getD_eq_getElem _ _ hj, List.getD_eq_getElem _ _ hk,
      List.getD_eq_getElem _ _ hh] at h
    exact h
  · refine ⟨(id / (durations.length * num_heading), id / num_heading % durations.length,
      id % num_heading), ⟨hj, hk, hl, henc⟩, ?_⟩
    rintro ⟨j, k, l⟩ ⟨_, hk', hl', he⟩
    obtain ⟨h1, h2, h3⟩ := encode_injective durations.length num_heading j k l _ _ _
      hk' hl' hk hl (he.trans henc.symm)
    rw [h1, h2, h3]
  · intro j k l _ hk' hl'
    exact ⟨encode_div_div _ _ j k l hk' hl', encode_div_mod _ _ j k l hk' hl',
      encode_mod _ _ j k l hl'⟩

/-- C8. Over the reals, for `num_heading >= 2`, the headings
`linspace(0, 2π - 2π / num_heading, num_heading)` enumerated by the
constructor are `num_heading` values, the one of index `l` being
`l * 2π / num_heading`, and all of them lie in `[0, 2π)`; for
`num_heading = 4` they are exactly `0, π/2, π, 3π/2`. -/
theorem C8_headings (num_heading : Nat) (hn : 2 ≤ num_heading) :
    (m_headings Real.pi num_heading).length = num_heading ∧
    (∀ l : Nat, l < num_heading →
      (m_headings Real.pi num_heading)[l]? =
        some ((l : ℝ) * (2 * Real.pi) / (num_heading : ℝ))) ∧
    (∀ h ∈ m_headings Real.pi num_heading, 0 ≤ h ∧ h < 2 * Real.pi) ∧
    m_headings Real.pi 4 = [0, Real.pi / 2, Real.pi, 3 * Real.pi / 2] := by
  have hn0 : (num_heading : ℝ) ≠ 0 := by
    have : (2 : ℝ) ≤ (num_heading : ℝ) := by exact_mod_cast hn
    linarith
  have hn1 : (num_heading : ℝ) - 1 ≠ 0 := by
    have : (2 : ℝ) ≤ (num_heading : ℝ) := by exact_mod_cast hn
    linarith
  have hnpos : (0 : ℝ) < (num_heading : ℝ) := by
    have : (2 : ℝ) ≤ (num_heading : ℝ) := by exact_mod_cast hn
    linarith
  have hidx : ∀ l : Nat, l < num_heading →
      (m_headings Real.pi num_heading)[l]? =
        some ((l : ℝ) * (2 * Real.pi) / (num_heading : ℝ)) := by
    intro l hl
    unfold m_headings
    rw [linspace_getElem? _ _ _ _ hl]
    congr 1
    field_simp
    ring
  refine ⟨linspace_length _ _ _, hidx, ?_, ?_⟩
  · intro h hmem
    obtain ⟨l, hl, hget⟩ := List.getElem_of_mem hmem
    have hl2 : l < num_heading := by
      have := linspace_length (0 : ℝ) (2 * Real.pi - 2 * Real.pi / (num_heading : ℝ))
        num_heading
      unfold m_headings at hl
      omega
    have h2 := hidx l hl2
    rw [List.getElem?_eq_getElem hl, hget] at h2
    have hval : h = (l : ℝ) * (2 * Real.pi) / (num_heading : ℝ) := Option.some.inj h2
    have hlr : (l : ℝ) < (num_heading : ℝ) := by exact_mod_cast hl2
    have hl0 : (0 : ℝ) ≤ (l : ℝ) := Nat.cast_nonneg l
    have hpi : 0 < Real.pi := Real.pi_pos
    rw [hval]
    constructor
    · positivity
    · rw [div_lt_iff₀ hnpos]
      nlinarith
  · unfold m_headings linspace
    simp only [List.range_succ, List.range_zero, List.nil_append, List.cons_append,
      List.map_cons, List.map_nil]
    norm_num
    refine ⟨?_, ?_, ?_⟩ <;> ring

/-! ## GenericActionSpace: lookups with an invalid id -/

theorem get_action_ub_of_invalid (w : Nat) (hw : 32 ≤ w) (s : GenericActionSpace α)
    (hlen : fitsInt s.m_actions.length) (id : Int) (hid : isInt id)
    (hbad : ¬ (0 ≤ id ∧ id < size s)) : get_action w s id = Outcome.ub := by
  unfold size at hbad
  rw [toInt_of_fitsInt _ hlen] at hbad
  exact vecIndex_ub_of_invalid w hw s.m_actions hlen id hid hbad

theorem action_similarity_ub_of_invalid_left (w : Nat) (hw : 32 ≤ w)
    (sqrt cos sin : α → α) (s : GenericActionSpace α) (hlen : fitsInt s.m_actions.length)
    (id other : Int) (hid : isInt id) (hbad : ¬ (0 ≤ id ∧ id < size s)) :
    action_similarity w sqrt cos sin s id other = Outcome.ub := by
  unfold size at hbad
  rw [toInt_of_fitsInt _ hlen] at hbad
  unfold action_similarity
  rw [vecIndex_ub_of_invalid w hw s.m_actions hlen id hid hbad]
  rfl

theorem action_similarity_ub_of_invalid_right (w : Nat) (hw : 32 ≤ w)
    (sqrt cos sin : α → α) (s : GenericActionSpace α) (hlen : fitsInt s.m_actions.length)
    (id other : Int) (hid : isInt id) (hbad : ¬ (0 ≤ id ∧ id < size s)) :
    action_similarity w sqrt cos sin s other id = Outcome.ub := by
  unfold size at hbad
  rw [toInt_of_fitsInt _ hlen] at hbad
  unfold action_similarity
  rw [vecIndex_ub_of_invalid w hw s.m_actions hlen id hid hbad]
  cases vecIndex s.m_actions (toSizeT w other) with
  | ub => rfl
  | ok p1 =>
    cases p1 with
    | none => rfl
    | some a1 => rfl

/-- C3, what the code does. For every `GenericActionSpace` whose table length
fits in `int`, every `std::size_t` width `w ≥ 32` and every 32-bit signed `id`
outside `[0, size())` (in particular `id = size()` and `id = -1`):
`get_action(id)` and `action_similarity` with `id` as either argument index
the table past its end, with no validation before the access; the result is
undefined behaviour, not a failure value. -/
theorem C3_invalid_id_indexes_out_of_bounds (w : Nat) (hw : 32 ≤ w)
    (s : GenericActionSpace α) (hlen : fitsInt s.m_actions.length) (id : Int)
    (hid : isInt id) (hbad : ¬ (0 ≤ id ∧ id < size s)) :
    get_action w s id = Outcome.ub ∧
    ∀ (sqrt cos sin : α → α) (other : Int),
      action_similarity w sqrt cos sin s id other = Outcome.ub ∧
      action_similarity w sqrt cos sin s other id = Outcome.ub :=
  ⟨get_action_ub_of_invalid w hw s hlen id hid hbad, fun sqrt cos sin other =>
    ⟨action_similarity_ub_of_invalid_left w hw sqrt cos sin s hlen id other hid hbad,
      action_similarity_ub_of_invalid_right w hw sqrt cos sin s hlen id other hid hbad⟩⟩

end GenericActionSpace

/-! ## Instances on the two small spaces -/

/-- Instance of C1: the four-action space, `w = 64`, `id = -1`. -/
theorem C1_is_valid_action_id_iff_witness :
    (32 ≤ 64 ∧ fitsInt exampleObjectSpace.m_actions.length ∧ isInt (-1)) ∧
    ((ObjectOrientedActionSpace.is_valid_action_id 64 exampleObjectSpace (-1) = true ↔
        (0 : Int) ≤ -1 ∧ (-1 : Int) < ObjectOrientedActionSpace.size exampleObjectSpace) ∧
      ((-1 : Int) < 0 →
        ObjectOrientedActionSpace.is_valid_action_id 64 exampleObjectSpace (-1) = false)) :=
  ⟨⟨by decide, by decide, by decide⟩,
    ObjectOrientedActionSpace.C1_is_valid_action_id_iff 64 (by decide) exampleObjectSpace
      (by decide) (-1) (by decide)⟩

/-- Instance of C2: the four-action space, `w = 64`, `id = 3`. -/
theorem C2_get_action_witness :
    (32 ≤ 64 ∧ fitsInt exampleObjectSpace.m_actions.length ∧ isInt 3) ∧
    ((((0 : Int) ≤ 3 ∧ (3 : Int) < ObjectOrientedActionSpace.size exampleObjectSpace) →
        ∃ a, exampleObjectSpace.m_actions[(3 : Int).toNat]? = some a ∧
          ObjectOrientedActionSpace.get_action 64 exampleObjectSpace 3 =
            Outcome.ok (some a)) ∧
      (¬ ((0 : Int) ≤ 3 ∧ (3 : Int) < ObjectOrientedActionSpace.size exampleObjectSpace) →
        ObjectOrientedActionSpace.get_action 64 exampleObjectSpace 3 = Outcome.ok none) ∧
      ObjectOrientedActionSpace.get_action 64 exampleObjectSpace 3 ≠ Outcome.ub) :=
  ⟨⟨by decide, by decide, by decide⟩,
    ObjectOrientedActionSpace.C2_get_action 64 (by decide) exampleObjectSpace
      (by decide) 3 (by decide)⟩

/-- Instance of C3: the eight-action space, `w = 64`, `id = 8 = size()`. -/
theorem C3_invalid_id_indexes_out_of_bounds_witness :
    (32 ≤ 64 ∧ fitsInt exampleGenericSpace.m_actions.length ∧ isInt 8 ∧
      ¬ ((0 : Int) ≤ 8 ∧ (8 : Int) < GenericActionSpace.size exampleGenericSpace)) ∧
    (GenericActionSpace.get_action 64 exampleGenericSpace 8 = Outcome.ub ∧
      ∀ (sqrt cos sin : ℚ → ℚ) (other : Int),
        GenericActionSpace.action_similarity 64 sqrt cos sin exampleGenericSpace 8 other =
          Outcome.ub ∧
        GenericActionSpace.action_similarity 64 sqrt cos sin exampleGenericSpace other 8 =
          Outcome.ub) :=
  ⟨⟨by decide, by decide, by decide, by decide⟩,
    GenericActionSpace.C3_invalid_id_indexes_out_of_bounds 64 (by decide)
      exampleGenericSpace (by decide) 8 (by decide) (by decide)⟩

/-- Instance of C4: `speeds = {1/2, 1}`, `durations = {1}`, `num_heading = 4`. -/
theorem C4_size_eq_product_witness :
    (1 ≤ 4 ∧ fitsInt ([1 / 2, 1] : List ℚ).length ∧ fitsInt ([1] : List ℚ).length ∧
      fitsInt (([1 / 2, 1] : List ℚ).length * ([1] : List ℚ).length * 4)) ∧
    ∃ sp, GenericActionSpace.construct (22 / 7 : ℚ) [1 / 2, 1] [1] 4 = Outcome.ok sp ∧
      sp.m_actions.length = ([1 / 2, 1] : List ℚ).length * ([1] : List ℚ).length * 4 ∧
      GenericActionSpace.size sp =
        ((([1 / 2, 1] : List ℚ).length * ([1] : List ℚ).length * 4 : Nat) : Int) :=
  ⟨⟨by decide, by decide, by decide, by decide⟩,
    GenericActionSpace.C4_size_eq_product (22 / 7 : ℚ) [1 / 2, 1] [1] 4
      (by decide) (by decide) (by decide) (by decide)⟩

/-- Instance of C5: `speeds = {1}`, `ratios = {2, 3}`, `edge_offset = 10`, `num_offset = 1`. -/
theorem C5_size_eq_product_witness :
    ((10 : ℚ) ≠ 0 ∧ 1 ≤ 1 ∧ fitsInt (([1] : List ℚ).length * 1 * 4)) ∧
    ∃ sp, ObjectOrientedActionSpace.construct (22 / 7 : ℚ) [1] [2, 3] 10 1 = Outcome.ok sp ∧
      ObjectOrientedActionSpace.size sp = ((([1] : List ℚ).length * 1 * 4 : Nat) : Int) :=
  ⟨⟨by decide, by decide, by decide⟩,
    ObjectOrientedActionSpace.C5_size_eq_product (22 / 7 : ℚ) [1] 2 3 10 1
      (by decide) (by decide) (by decide)⟩

/-- Instance of C6: `speeds = {1/2, 1}`, `durations = {1}`, `num_heading = 4`, `(j, k, l) = (1, 0, 2)`. -/
theorem C6_row_major_witness :
    (1 < ([1 / 2, 1] : List ℚ).length ∧ 0 < ([1] : List ℚ).length ∧ 2 < 4 ∧
      fitsInt (([1 / 2, 1] : List ℚ).length * ([1] : List ℚ).length * 4)) ∧
    ∃ sp, GenericActionSpace.construct (22 / 7 : ℚ) [1 / 2, 1] [1] 4 = Outcome.ok sp ∧
      ∃ speed duration heading, ([1 / 2, 1] : List ℚ)[1]? = some speed ∧
        ([1] : List ℚ)[0]? = some duration ∧
        (GenericActionSpace.m_headings (22 / 7 : ℚ) 4)[2]? = some heading ∧
        sp.m_actions[1 * ([1] : List ℚ).length * 4 + 0 * 4 + 2]? =
          some (some (GenericActionSpace.Action.mk speed duration heading)) ∧
        (0 : Int) ≤ ((1 * ([1] : List ℚ).length * 4 + 0 * 4 + 2 : Nat) : Int) ∧
        ((1 * ([1] : List ℚ).length * 4 + 0 * 4 + 2 : Nat) : Int) <
          GenericActionSpace.size sp :=
  ⟨⟨by decide, by decide, by decide, by decide⟩,
    GenericActionSpace.C6_row_major (22 / 7 : ℚ) [1 / 2, 1] [1] 4 1 0 2
      (by decide) (by decide) (by decide) (by decide)⟩

/-- Instance of C7: `speeds = {1/2, 1}`, `durations = {1}`, `num_heading = 4`, `id = 6`. -/
theorem C7_id_invertible_witness :
    (6 < ([1 / 2, 1] : List ℚ).length * ([1] : List ℚ).length * 4 ∧
      fitsInt (([1 / 2, 1] : List ℚ).length * ([1] : List ℚ).length * 4)) ∧
    ∃ sp, GenericActionSpace.construct (22 / 7 : ℚ) [1 / 2, 1] [1] 4 = Outcome.ok sp ∧
      ∃ a, sp.m_actions[6]? = some (some a) ∧
        (GenericActionSpace.m_headings (22 / 7 : ℚ) 4)[6 % 4]? = some a.m_heading ∧
        ([1] : List ℚ)[6 / 4 % ([1] : List ℚ).length]? = some a.m_duration ∧
        ([1 / 2, 1] : List ℚ)[6 / (([1] : List ℚ).length * 4)]? = some a.m_speed :=
  ⟨⟨by decide, by decide⟩,
    match GenericActionSpace.C7_id_invertible (22 / 7 : ℚ) [1 / 2, 1] [1] 4 6
      (by decide) (by decide) with
    | ⟨sp, hsp, _, ha, _⟩ => ⟨sp, hsp, ha⟩⟩

/-- Instance of C8: `num_heading = 4`, heading of index 2. -/
theorem C8_headings_witness :
    2 ≤ 4 ∧ (GenericActionSpace.m_headings Real.pi 4)[2]? =
      some (((2 : Nat) : ℝ) * (2 * Real.pi) / ((4 : Nat) : ℝ)) :=
  ⟨by decide, (GenericActionSpace.C8_headings 4 (by decide)).2.1 2 (by decide)⟩

/-- Instance of C9: `speeds = {1, 2}`, `ratios = {2, 3}`, `edge_offset = 10`, `num_offset = 2`. -/
theorem C9_enumeration_witness :
    fitsInt (4 * (2 * ([1, 2] : List ℚ).length)) ∧
    ∃ sp, ObjectOrientedActionSpace.construct (22 / 7 : ℚ) [1, 2] [2, 3] 10 2 =
        Outcome.ok sp ∧
      ∀ s o v : Nat, s < 4 → o < 2 → v < ([1, 2] : List ℚ).length →
        ∃ side off speed, (ObjectOrientedActionSpace.sides (22 / 7 : ℚ))[s]? = some side ∧
          (ObjectOrientedActionSpace.cube_offsets (10 : ℚ) 2)[o]? = some off ∧
          ([1, 2] : List ℚ)[v]? = some speed ∧
          sp.m_actions[s * 2 * ([1, 2] : List ℚ).length +
              o * ([1, 2] : List ℚ).length + v]? =
            some (GenericAction.mk speed (-off / 10)
              (if side = FRONT ∨ side = BACK (22 / 7 : ℚ) then 2 else 3) side) :=
  ⟨by decide,
    (ObjectOrientedActionSpace.C9_enumeration (22 / 7 : ℚ) [1, 2] 2 3 [] 10 2
      (by decide)).2.1⟩

/-- Instance of C10: the four-action space, `w = 64`, ids 0 and 1, the identity in place of the square root. -/
theorem C10_action_similarity_witness :
    (32 ≤ 64 ∧ fitsInt exampleObjectSpace.m_actions.length ∧ isInt 0 ∧ isInt 1 ∧
      ((0 : Int) ≤ 0 ∧ (0 : Int) < ObjectOrientedActionSpace.size exampleObjectSpace) ∧
      ((0 : Int) ≤ 1 ∧ (1 : Int) < ObjectOrientedActionSpace.size exampleObjectSpace)) ∧
    ∃ a1 a2, exampleObjectSpace.m_actions[(0 : Int).toNat]? = some a1 ∧
      exampleObjectSpace.m_actions[(1 : Int).toNat]? = some a2 ∧
      ObjectOrientedActionSpace.action_similarity 64 (fun x => x) exampleObjectSpace 0 1 7 =
        Outcome.ok (true, (a1.m_speed - a2.m_speed) ^ 2 +
          (a1.m_edge_offset - a2.m_edge_offset) ^ 2 +
          (a1.m_aspect_ratio - a2.m_aspect_ratio) ^ 2) :=
  ⟨⟨by decide, by decide, by decide, by decide, by decide, by decide⟩,
    (ObjectOrientedActionSpace.C10_action_similarity 64 (by decide) (fun x => x)
      exampleObjectSpace (by decide) 0 1 (by decide) (by decide) 7).2.1
      ⟨by decide, by decide⟩⟩

/-! ## GenericActionSpace: similarity on valid ids -/

theorem toSizeT_natCast (w : Nat) (hw : 32 ≤ w) (n : Nat) (hn : fitsInt n) :
    toSizeT w (n : Int) = n := by
  unfold fitsInt at hn
  rw [toSizeT_of_nonneg w hw (n : Int) (Int.natCast_nonneg n) (by omega)]
  exact Int.toNat_natCast n

theorem vecIndex_of_getElem? {β : Type} (v : List β) (i : Nat) (x : β)
    (h : v[i]? = some x) : vecIndex v i = Outcome.ok x := by
  unfold vecIndex
  rw [h]

namespace GenericActionSpace

theorem fillActions_slot (speeds durations headings : List α) (nh id : Nat)
    (hid : id < speeds.length * durations.length * nh) :
    (fillActions speeds durations headings nh
      (List.replicate (speeds.length * durations.length * nh) none))[id]? =
      some (some (Action.mk (speeds.getD (id / (durations.length * nh)) 0)
        (durations.getD (id / nh % durations.length) 0) (headings.getD (id % nh) 0))) := by
  obtain ⟨hj, hk, hl, henc⟩ := decode_spec speeds.length durations.length nh id hid
  have h := fillActions_getElem? speeds durations headings nh
    (List.replicate (speeds.length * durations.length * nh) none)
    _ _ _ hj hk hl (List.length_replicate _ _)
  rw [henc] at h
  exact h

theorem get_action_of_slot (w : Nat) (hw : 32 ≤ w) (s : GenericActionSpace α) (id : Nat)
    (hid : fitsInt id) (p : Option (Action α)) (h : s.m_actions[id]? = some p) :
    get_action w s (id : Int) = Outcome.ok p := by
  unfold get_action
  rw [toSizeT_natCast w hw id hid]
  exact vecIndex_of_getElem? _ _ _ h

theorem action_similarity_of_slots (w : Nat) (hw : 32 ≤ w) (sqrt cos sin : α → α)
    (s : GenericActionSpace α) (id1 id2 : Nat) (hid1 : fitsInt id1) (hid2 : fitsInt id2)
    (a1 a2 : Action α) (h1 : s.m_actions[id1]? = some (some a1))
    (h2 : s.m_actions[id2]? = some (some a2)) :
    action_similarity w sqrt cos sin s (id1 : Int) (id2 : Int) =
      Outcome.ok (sqrt ((a1.m_speed - a2.m_speed) ^ 2 + (a1.m_duration - a2.m_duration) ^ 2 +
        (cos a1.m_heading - cos a2.m_heading) ^ 2 +
        (sin a1.m_heading - sin a2.m_heading) ^ 2)) := by
  unfold action_similarity
  rw [toSizeT_natCast w hw id1 hid1, toSizeT_natCast w hw id2 hid2,
    vecIndex_of_getElem? _ _ _ h1, vecIndex_of_getElem? _ _ _ h2]
  rfl

/-- C11. For every constructed `GenericActionSpace` and every pair of valid
ids (ids below `size()`), `action_similarity` returns
`sqrt(Δspeed² + Δduration² + (cos h1 − cos h2)² + (sin h1 − sin h2)²)` for the
two stored actions, `m_direction` being the unit-circle projection
`(cos heading, sin heading)`: the heading enters the distance only through
its cosine and sine. -/
theorem C11_similarity_is_euclidean (w : Nat) (hw : 32 ≤ w) (sqrt cos sin : α → α)
    (pi : α) (speeds durations : List α) (num_heading id1 id2 : Nat)
    (h1 : id1 < speeds.length * durations.length * num_heading)
    (h2 : id2 < speeds.length * durations.length * num_heading)
    (hfit : fitsInt (speeds.length * durations.length * num_heading)) :
    ∃ sp, construct pi speeds durations num_heading = Outcome.ok sp ∧
      ((id1 : Int) < size sp ∧ (id2 : Int) < size sp) ∧
      ∃ a1 a2, sp.m_actions[id1]? = some (some a1) ∧ sp.m_actions[id2]? = some (some a2) ∧
        action_similarity w sqrt cos sin sp (id1 : Int) (id2 : Int) =
          Outcome.ok (sqrt ((a1.m_speed - a2.m_speed) ^ 2 +
            (a1.m_duration - a2.m_duration) ^ 2 +
            (cos a1.m_heading - cos a2.m_heading) ^ 2 +
            (sin a1.m_heading - sin a2.m_heading) ^ 2)) := by
  have hs1 := fillActions_slot speeds durations (m_headings pi num_heading) num_heading id1 h1
  have hs2 := fillActions_slot speeds durations (m_headings pi num_heading) num_heading id2 h2
  refine ⟨_, construct_ok_of_pos pi speeds durations num_heading (by omega) hfit, ⟨?_, ?_⟩,
    _, _, hs1, hs2, ?_⟩
  · rw [size_mk_fillActions speeds durations _ num_heading hfit]
    exact_mod_cast h1
  · rw [size_mk_fillActions speeds durations _ num_heading hfit]
    exact_mod_cast h2
  · exact action_similarity_of_slots w hw sqrt cos sin _ id1 id2
      (fitsInt_of_le _ _ (le_of_lt h1) hfit) (fitsInt_of_le _ _ (le_of_lt h2) hfit) _ _ hs1 hs2

end GenericActionSpace

/-! ## Similarity: identity and symmetry, both variants -/

theorem GenericActionSpace.construct_filled (pi : α) (speeds durations : List α) (nh : Nat)
    (hpos : 0 < speeds.length * durations.length * nh)
    (hfit : fitsInt (speeds.length * durations.length * nh)) :
    ∃ sp, GenericActionSpace.construct pi speeds durations nh = Outcome.ok sp ∧
      GenericActionSpace.size sp = ((speeds.length * durations.length * nh : Nat) : Int) ∧
      ∀ id : Nat, id < speeds.length * durations.length * nh →
        sp.m_actions[id]? =
          some (some (GenericActionSpace.Action.mk
            (speeds.getD (id / (durations.length * nh)) 0)
            (durations.getD (id / nh % durations.length) 0)
            ((GenericActionSpace.m_headings pi nh).getD (id % nh) 0))) :=
  ⟨_, GenericActionSpace.construct_ok_of_pos pi speeds durations nh hpos hfit,
    GenericActionSpace.size_mk_fillActions speeds durations _ nh hfit,
    fun id hid => GenericActionSpace.fillActions_slot speeds durations _ nh id hid⟩

/-- C12. For both variants, `action_similarity(id, id)` succeeds and yields
exactly `0` for every valid id (the square root, a parameter, mapping `0` to
`0`): for every `ObjectOrientedActionSpace` whose table length fits in `int`
it returns `true` and stores `0`; for every constructed `GenericActionSpace`
it returns `0`. Stored parameters are field elements, hence finite. -/
theorem C12_similarity_self_zero (w : Nat) (hw : 32 ≤ w) (sqrt cos sin : α → α)
    (hsqrt : sqrt 0 = 0) :
    (∀ (s : ObjectOrientedActionSpace α) (id : Int) (out : α),
      fitsInt s.m_actions.length → isInt id →
      (0 ≤ id ∧ id < ObjectOrientedActionSpace.size s) →
      ObjectOrientedActionSpace.action_similarity w sqrt s id id out =
        Outcome.ok (true, 0)) ∧
    (∀ (pi : α) (speeds durations : List α) (num_heading id : Nat),
      id < speeds.length * durations.length * num_heading →
      fitsInt (speeds.length * durations.length * num_heading) →
      ∃ sp, GenericActionSpace.construct pi speeds durations num_heading = Outcome.ok sp ∧
        (id : Int) < GenericActionSpace.size sp ∧
        GenericActionSpace.action_similarity w sqrt cos sin sp (id : Int) (id : Int) =
          Outcome.ok 0) := by
  constructor
  · intro s id out hlen hid hvalid
    have hv := (ObjectOrientedActionSpace.is_valid_action_id_eq_true_iff w hw s hlen id
      hid).mpr hvalid
    obtain ⟨a1, a2, ha1, ha2, heq⟩ :=
      ObjectOrientedActionSpace.action_similarity_of_valid w hw sqrt s id id hid hid out hv hv
    have ha : a1 = a2 := Option.some.inj (ha1.symm.trans ha2)
    rw [heq, ha]
    simp [hsqrt]
  · intro pi speeds durations num_heading id hid hfit
    obtain ⟨sp, hc, hsz, hslot⟩ := GenericActionSpace.construct_filled pi speeds durations
      num_heading (by omega) hfit
    have hs := hslot id hid
    have fi := GenericActionSpace.fitsInt_of_le _ _ (le_of_lt hid) hfit
    refine ⟨sp, hc, ?_, ?_⟩
    · rw [hsz]
      exact_mod_cast hid
    · rw [GenericActionSpace.action_similarity_of_slots w hw sqrt cos sin sp id id fi fi
        _ _ hs hs]
      simp [hsqrt]

/-- C13. For both variants and all valid ids `i`, `j`, `action_similarity(i,
j)` and `action_similarity(j, i)` both succeed and yield the same distance:
for every `ObjectOrientedActionSpace` whose table length fits in `int` both
calls return `true` and store the same value; for every constructed
`GenericActionSpace` both calls return the same value. -/
theorem C13_similarity_symmetric (w : Nat) (hw : 32 ≤ w) (sqrt cos sin : α → α) :
    (∀ (s : ObjectOrientedActionSpace α) (i j : Int) (out : α),
      fitsInt s.m_actions.length → isInt i → isInt j →
      (0 ≤ i ∧ i < ObjectOrientedActionSpace.size s) →
      (0 ≤ j ∧ j < ObjectOrientedActionSpace.size s) →
      ∃ d, ObjectOrientedActionSpace.action_similarity w sqrt s i j out =
          Outcome.ok (true, d) ∧
        ObjectOrientedActionSpace.action_similarity w sqrt s j i out =
          Outcome.ok (true, d)) ∧
    (∀ (pi : α) (speeds durations : List α) (num_heading i j : Nat),
      i < speeds.length * durations.length * num_heading →
      j < speeds.length * durations.length * num_heading →
      fitsInt (speeds.length * durations.length * num_heading) →
      ∃ sp, GenericActionSpace.construct pi speeds durations num_heading = Outcome.ok sp ∧
        ∃ d, GenericActionSpace.action_similarity w sqrt cos sin sp (i : Int) (j : Int) =
            Outcome.ok d ∧
          GenericActionSpace.action_similarity w sqrt cos sin sp (j : Int) (i : Int) =
            Outcome.ok d) := by
  constructor
  · intro s i j out hlen hi hj hvi hvj
    have hv1 := (ObjectOrientedActionSpace.is_valid_action_id_eq_true_iff w hw s hlen i
      hi).mpr hvi
    have hv2 := (ObjectOrientedActionSpace.is_valid_action_id_eq_true_iff w hw s hlen j
      hj).mpr hvj
    obtain ⟨a1, a2, ha1, ha2, heq⟩ :=
      ObjectOrientedActionSpace.action_similarity_of_valid w hw sqrt s i j hi hj out hv1 hv2
    obtain ⟨b2, b1, hb2, hb1, heq2⟩ :=
      ObjectOrientedActionSpace.action_similarity_of_valid w hw sqrt s j i hj hi out hv2 hv1
    have e1 : b1 = a1 := Option.some.inj (hb1.symm.trans ha1)
    have e2 : b2 = a2 := Option.some.inj (hb2.symm.trans ha2)
    refine ⟨_, heq, ?_⟩
    rw [heq2, e1, e2]
    refine congrArg Outcome.ok (congrArg (Prod.mk true) (congrArg sqrt ?_))
    ring
  · intro pi speeds durations num_heading i j hi hj hfit
    obtain ⟨sp, hc, _, hslot⟩ := GenericActionSpace.construct_filled pi speeds durations
      num_heading (by omega) hfit
    have hsi := hslot i hi
    have hsj := hslot j hj
    have fi := GenericActionSpace.fitsInt_of_le _ _ (le_of_lt hi) hfit
    have fj := GenericActionSpace.fitsInt_of_le _ _ (le_of_lt hj) hfit
    refine ⟨sp, hc, _,
      GenericActionSpace.action_similarity_of_slots w hw sqrt cos sin sp i j fi fj _ _ hsi hsj,
      ?_⟩
    rw [GenericActionSpace.action_similarity_of_slots w hw sqrt cos sin sp j i fj fi _ _ hsj hsi]
    refine congrArg Outcome.ok (congrArg sqrt ?_)
    ring

/-! ## ObjectOrientedActionSpace: the world-frame transform -/

namespace ObjectOrientedActionSpace

theorem get_generic_of_valid (w : Nat) (hw : 32 ≤ w) (cos sin angle_normalization : α → α)
    (s : ObjectOrientedActionSpace α) (id : Int) (hid : isInt id)
    (hv : is_valid_action_id w s id = true) (state : SE2State α)
    (out : ObjectOrientedAction α) :
    ∃ a, s.m_actions[id.toNat]? = some a ∧
      get_generic_to_object_oriented_action w cos sin angle_normalization s id state out =
        Outcome.ok (true, ObjectOrientedAction.mk a.m_speed
          (state.x - s.m_center_offset * cos a.m_heading_offset +
              a.m_edge_offset * s.m_edge_offset * sin a.m_heading_offset,
            state.y - s.m_center_offset * sin a.m_heading_offset +
              a.m_edge_offset * s.m_edge_offset * cos a.m_heading_offset,
            angle_normalization (state.angle + a.m_heading_offset))) := by
  obtain ⟨a, ha, hget⟩ := get_action_of_valid w hw s id hid hv
  refine ⟨a, ha, ?_⟩
  unfold get_generic_to_object_oriented_action
  rw [hget]
  rfl

theorem get_generic_of_invalid (w : Nat) (cos sin angle_normalization : α → α)
    (s : ObjectOrientedActionSpace α) (id : Int)
    (hv : is_valid_action_id w s id = false) (state : SE2State α)
    (out : ObjectOrientedAction α) :
    get_generic_to_object_oriented_action w cos sin angle_normalization s id state out =
      Outcome.ok (false, out) := by
  unfold get_generic_to_object_oriented_action
  rw [get_action_of_invalid w s id hv]
  rfl

theorem publish_action_of_invalid (w : Nat) (cos sin angle_normalization : α → α)
    (s : ObjectOrientedActionSpace α) (id : Int)
    (hv : is_valid_action_id w s id = false) (state : SE2State α)
    (publisher : List (ObjectOrientedActionMsg α)) :
    publish_action w cos sin angle_normalization s id publisher state =
      Outcome.ok (false, publisher) := by
  unfold publish_action
  simp only [get_generic_of_invalid w cos sin angle_normalization s id hv]
  rfl

theorem is_valid_action_id_eq_false (w : Nat) (hw : 32 ≤ w) (s : ObjectOrientedActionSpace α)
    (hlen : fitsInt s.m_actions.length) (id : Int) (hid : isInt id)
    (h : ¬ (0 ≤ id ∧ id < size s)) : is_valid_action_id w s id = false := by
  cases hv : is_valid_action_id w s id with
  | false => rfl
  | true => exact absurd ((is_valid_action_id_eq_true_iff w hw s hlen id hid).mp hv) h

/-- C14. For every constructed `ObjectOrientedActionSpace` (ratio list
starting with `r0, r1`, action count fitting in `int`), every valid id with
stored action `a` and every object pose `(px, py, θ)`,
`get_generic_to_object_oriented_action` returns `true` and writes the action
with speed `a.speed` and start pose
`x = px − 60 cos h + r * edge_offset * sin h`,
`y = py − 60 sin h + r * edge_offset * cos h`,
`theta = angle_normalization(θ + h)`, where `r` is the edge offset ratio and
`h` the heading offset of `a`, and `60` the center offset set by the
constructor. In particular, with `cos 0 = 1`, `sin 0 = 0` and
`angle_normalization(0) = 0`: for `speeds = {1}`, `ratios = {2, 3}`,
`edge_offset = 10`, `num_offset = 1`, the object at the origin with `θ = 0`
and the `FRONT` action (id 0, ratio 0), the start pose is `(−60, 0, 0)`. -/
theorem C14_world_frame_transform (w : Nat) (hw : 32 ≤ w)
    (cos sin angle_normalization : α → α) (pi : α) (speeds : List α) (r0 r1 : α)
    (rest : List α) (edge_offset : α) (num_offset : Nat)
    (hfit : fitsInt (4 * (num_offset * speeds.length))) :
    (∃ sp, construct pi speeds (r0 :: r1 :: rest) edge_offset num_offset = Outcome.ok sp ∧
      ∀ (id : Int) (state : SE2State α) (out : ObjectOrientedAction α),
        isInt id → (0 ≤ id ∧ id < size sp) →
        ∃ a, sp.m_actions[id.toNat]? = some a ∧
          get_generic_to_object_oriented_action w cos sin angle_normalization sp id state out =
            Outcome.ok (true, ObjectOrientedAction.mk a.m_speed
              (state.x - 60 * cos a.m_heading_offset +
                  a.m_edge_offset * edge_offset * sin a.m_heading_offset,
                state.y - 60 * sin a.m_heading_offset +
                  a.m_edge_offset * edge_offset * cos a.m_heading_offset,
                angle_normalization (state.angle + a.m_heading_offset)))) ∧
    (cos 0 = 1 → sin 0 = 0 → angle_normalization 0 = 0 →
      ∃ sp, construct pi [1] [2, 3] 10 1 = Outcome.ok sp ∧
        ∀ out : ObjectOrientedAction α,
          get_generic_to_object_oriented_action w cos sin angle_normalization sp 0
            (SE2State.mk 0 0 0) out =
            Outcome.ok (true, ObjectOrientedAction.mk 1 (-60, 0, 0))) := by
  constructor
  · obtain ⟨acts, hc, hlen, _⟩ :=
      construct_eq pi speeds r0 r1 rest edge_offset num_offset hfit
    refine ⟨_, hc, ?_⟩
    intro id state out hid hvalid
    have hfits : fitsInt acts.length := by rw [hlen]; exact hfit
    have hv := (is_valid_action_id_eq_true_iff w hw
      (ObjectOrientedActionSpace.mk speeds (r0 :: r1 :: rest) num_offset 60 edge_offset acts)
      hfits id hid).mpr hvalid
    exact get_generic_of_valid w hw cos sin angle_normalization _ id hid hv state out
  · intro hcos hsin hnorm
    obtain ⟨acts, hc, hlen, hidx⟩ :=
      construct_eq pi ([1] : List α) 2 3 [] 10 1 (by show fitsInt 4; decide)
    refine ⟨_, hc, ?_⟩
    intro out
    have h4 : acts.length = 4 := hlen
    have hfits : fitsInt acts.length := by rw [h4]; decide
    have h0 : acts[0]? = some (GenericAction.mk 1 0 2 FRONT) := by
      have h := hidx 0 0 0 (by decide) (by simp)
      simpa [sides, cube_offsets] using h
    have hv : is_valid_action_id w
        (ObjectOrientedActionSpace.mk ([1] : List α) [2, 3] 1 60 10 acts) 0 = true := by
      apply (is_valid_action_id_eq_true_iff w hw _ hfits 0 (by decide)).mpr
      refine ⟨le_refl 0, ?_⟩
      show (0 : Int) < toInt acts.length
      rw [h4, toInt_of_fitsInt 4 (by decide)]
      decide
    obtain ⟨a, ha, hres⟩ := get_generic_of_valid w hw cos sin angle_normalization
      (ObjectOrientedActionSpace.mk ([1] : List α) [2, 3] 1 60 10 acts) 0 (by decide) hv
      (SE2State.mk 0 0 0) out
    have hea : a = GenericAction.mk 1 0 2 FRONT := by
      have h1 : acts[(0 : Int).toNat]? = some a := ha
      have h2 : acts[(0 : Int).toNat]? = some (GenericAction.mk 1 0 2 FRONT) := h0
      exact Option.some.inj (h1.symm.trans h2)
    rw [hres, hea]
    simp [FRONT, hcos, hsin, hnorm]

/-- C15. For every `ObjectOrientedActionSpace` whose table length fits in
`int`, every 32-bit signed `id`, pose, output value `out` and list of
published messages: `get_generic_to_object_oriented_action` returns `false`
if and only if `id` is outside `[0, size())`; in that case the result is
defined (the null lookup result is not dereferenced), `out` is left as it
was, and `publish_action` returns `false` with the published messages
unchanged. -/
theorem C15_transform_invalid_id (w : Nat) (hw : 32 ≤ w)
    (cos sin angle_normalization : α → α) (s : ObjectOrientedActionSpace α)
    (hlen : fitsInt s.m_actions.length) (id : Int) (hid : isInt id) (state : SE2State α)
    (out : ObjectOrientedAction α) (publisher : List (ObjectOrientedActionMsg α)) :
    ((∃ r, get_generic_to_object_oriented_action w cos sin angle_normalization s id state out =
        Outcome.ok (false, r)) ↔ ¬ (0 ≤ id ∧ id < size s)) ∧
    (¬ (0 ≤ id ∧ id < size s) →
      get_generic_to_object_oriented_action w cos sin angle_normalization s id state out =
        Outcome.ok (false, out) ∧
      publish_action w cos sin angle_normalization s id publisher state =
        Outcome.ok (false, publisher)) ∧
    get_generic_to_object_oriented_action w cos sin angle_normalization s id state out ≠
      Outcome.ub := by
  have hbad : ¬ (0 ≤ id ∧ id < size s) →
      get_generic_to_object_oriented_action w cos sin angle_normalization s id state out =
        Outcome.ok (false, out) := fun h =>
    get_generic_of_invalid w cos sin angle_normalization s id
      (is_valid_action_id_eq_false w hw s hlen id hid h) state out
  have hgood : (0 ≤ id ∧ id < size s) →
      ∃ r, get_generic_to_object_oriented_action w cos sin angle_normalization s id state out =
        Outcome.ok (true, r) := by
    intro h
    obtain ⟨a, _, hres⟩ := get_generic_of_valid w hw cos sin angle_normalization s id hid
      ((is_valid_action_id_eq_true_iff w hw s hlen id hid).mpr h) state out
    exact ⟨_, hres⟩
  refine ⟨⟨?_, fun h => ⟨out, hbad h⟩⟩, fun h => ⟨hbad h, ?_⟩, ?_⟩
  · rintro ⟨r, hr⟩ hvalid
    obtain ⟨r2, hr2⟩ := hgood hvalid
    rw [hr2] at hr
    injection hr with hr
    injection hr with hr _
    exact Bool.noConfusion hr
  · exact publish_action_of_invalid w cos sin angle_normalization s id
      (is_valid_action_id_eq_false w hw s hlen id hid h) state publisher
  · by_cases h : 0 ≤ id ∧ id < size s
    · obtain ⟨r, hr⟩ := hgood h
      rw [hr]
      exact fun hc => Outcome.noConfusion hc
    · rw [hbad h]
      exact fun hc => Outcome.noConfusion hc

end ObjectOrientedActionSpace

/-! ## ObjectOrientedActionSpace: the stored actions -/

theorem getElem?_eq_some_getD {β : Type} (l : List β) (n : Nat) (d : β) (h : n < l.length) :
    l[n]? = some (l.getD n d) := by
  rw [List.getElem?_eq_getElem h, List.getD_eq_getElem l d h]

namespace ObjectOrientedActionSpace

theorem construct_slot (pi : α) (speeds : List α) (r0 r1 : α) (rest : List α)
    (edge_offset : α) (num_offset : Nat)
    (hfit : fitsInt (4 * (num_offset * speeds.length))) :
    ∃ sp, construct pi speeds (r0 :: r1 :: rest) edge_offset num_offset = Outcome.ok sp ∧
      sp.m_actions.length = 4 * (num_offset * speeds.length) ∧
      ∀ s o v : Nat, s < 4 → o < num_offset → v < speeds.length →
        sp.m_actions[s * (num_offset * speeds.length) + (o * speeds.length + v)]? =
          some (GenericAction.mk (speeds.getD v 0)
            (-((cube_offsets edge_offset num_offset).getD o 0) / edge_offset)
            (if (sides pi).getD s 0 = FRONT ∨ (sides pi).getD s 0 = BACK pi then r0 else r1)
            ((sides pi).getD s 0)) := by
  obtain ⟨acts, hc, hlen, hidx⟩ :=
    construct_eq pi speeds r0 r1 rest edge_offset num_offset hfit
  refine ⟨_, hc, hlen, ?_⟩
  intro s o v hs ho hv
  have hside : s < (sides pi).length := hs
  have hoff : o < (cube_offsets edge_offset num_offset).length := by
    rw [cube_offsets_length]; exact ho
  show acts[_]? = _
  rw [hidx s o v ho hv, getElem?_eq_some_getD (sides pi) s 0 hside,
    getElem?_eq_some_getD (cube_offsets edge_offset num_offset) o 0 hoff,
    getElem?_eq_some_getD speeds v 0 hv]
  rfl

theorem slot_index_lt (ns no s o v : Nat) (hs : s < 4) (ho : o < no) (hv : v < ns) :
    s * (no * ns) + (o * ns + v) < 4 * (no * ns) := by
  have h1 : o * ns + v < no * ns := by
    calc o * ns + v < o * ns + ns := by omega
      _ = (o + 1) * ns := by ring
      _ ≤ no * ns := Nat.mul_le_mul_right _ ho
  calc s * (no * ns) + (o * ns + v) < s * (no * ns) + no * ns := by omega
    _ = (s + 1) * (no * ns) := by ring
    _ ≤ 4 * (no * ns) := Nat.mul_le_mul_right _ hs

theorem action_similarity_of_table_slots (w : Nat) (hw : 32 ≤ w) (sqrt : α → α)
    (s : ObjectOrientedActionSpace α) (hlen : fitsInt s.m_actions.length) (id1 id2 : Nat)
    (a1 a2 : GenericAction α) (h1 : s.m_actions[id1]? = some a1)
    (h2 : s.m_actions[id2]? = some a2) (out : α) :
    ((0 : Int) ≤ (id1 : Int) ∧ (id1 : Int) < size s) ∧
    ((0 : Int) ≤ (id2 : Int) ∧ (id2 : Int) < size s) ∧
    action_similarity w sqrt s (id1 : Int) (id2 : Int) out =
      Outcome.ok (true, sqrt ((a1.m_speed - a2.m_speed) ^ 2 +
        (a1.m_edge_offset - a2.m_edge_offset) ^ 2 +
        (a1.m_aspect_ratio - a2.m_aspect_ratio) ^ 2)) := by
  have hl1 : id1 < s.m_actions.length := by
    rcases Nat.lt_or_ge id1 s.m_actions.length with h | h
    · exact h
    · rw [List.getElem?_eq_none h] at h1; exact Option.noConfusion h1
  have hl2 : id2 < s.m_actions.length := by
    rcases Nat.lt_or_ge id2 s.m_actions.length with h | h
    · exact h
    · rw [List.getElem?_eq_none h] at h2; exact Option.noConfusion h2
  have hsz : size s = (s.m_actions.length : Int) := toInt_of_fitsInt _ hlen
  have hv1 : (0 : Int) ≤ (id1 : Int) ∧ (id1 : Int) < size s :=
    ⟨Int.natCast_nonneg _, by rw [hsz]; exact_mod_cast hl1⟩
  have hv2 : (0 : Int) ≤ (id2 : Int) ∧ (id2 : Int) < size s :=
    ⟨Int.natCast_nonneg _, by rw [hsz]; exact_mod_cast hl2⟩
  have hi1 : isInt (id1 : Int) := by
    unfold fitsInt at hlen
    unfold isInt
    omega
  have hi2 : isInt (id2 : Int) := by
    unfold fitsInt at hlen
    unfold isInt
    omega
  refine ⟨hv1, hv2, ?_⟩
  obtain ⟨b1, b2, hb1, hb2, heq⟩ := action_similarity_of_valid w hw sqrt s (id1 : Int)
    (id2 : Int) hi1 hi2 out
    ((is_valid_action_id_eq_true_iff w hw s hlen _ hi1).mpr hv1)
    ((is_valid_action_id_eq_true_iff w hw s hlen _ hi2).mpr hv2)
  rw [Int.toNat_natCast] at hb1 hb2
  have e1 : b1 = a1 := Option.some.inj (hb1.symm.trans h1)
  have e2 : b2 = a2 := Option.some.inj (hb2.symm.trans h2)
  rw [heq, e1, e2]

end ObjectOrientedActionSpace

/-! ## ObjectOrientedActionSpace: similarity ignores the side -/

namespace ObjectOrientedActionSpace

theorem sideRatio_left_eq_right [CharZero α] (pi r0 r1 : α) :
    (if LEFT pi = FRONT ∨ LEFT pi = BACK pi then r0 else r1) =
      (if RIGHT pi = FRONT ∨ RIGHT pi = BACK pi then r0 else r1) := by
  by_cases hpi : pi = 0
  · simp [LEFT, RIGHT, FRONT, BACK, hpi]
  · have h1 : ¬ (LEFT pi = FRONT ∨ LEFT pi = BACK pi) := by
      unfold LEFT FRONT BACK
      rintro (h | h)
      · exact hpi (by linear_combination (2 : α) * h)
      · exact hpi (by linear_combination (-2 : α) * h)
    have h2 : ¬ (RIGHT pi = FRONT ∨ RIGHT pi = BACK pi) := by
      unfold RIGHT FRONT BACK
      rintro (h | h)
      · exact hpi (by linear_combination (2 / 3 : α) * h)
      · exact hpi (by linear_combination (2 : α) * h)
    rw [if_neg h1, if_neg h2]

/-- C19, amended. `action_similarity` of an `ObjectOrientedActionSpace`
constructed with `edge_offset ≠ 0` (and finite stored parameters: field
elements) ignores `heading_offset`: for every offset index `o < num_offset` and speed
index `v < num_speed`, the `FRONT` id `o * num_speed + v` and the `BACK` id
`2 * num_offset * num_speed + o * num_speed + v` are distinct valid ids whose
similarity is exactly `0`, and likewise the `LEFT` id
`num_offset * num_speed + o * num_speed + v` and the `RIGHT` id
`3 * num_offset * num_speed + o * num_speed + v` (the square root, a
parameter, mapping `0` to `0`; the field of characteristic zero, so that the
four sides are told apart as the reals do). A zero distance does not imply
equal ids. -/
theorem C19_similarity_ignores_side [CharZero α] (w : Nat) (hw : 32 ≤ w) (sqrt : α → α)
    (hsqrt : sqrt 0 = 0) (pi : α) (speeds : List α) (r0 r1 : α) (rest : List α)
    (edge_offset : α) (_he : edge_offset ≠ 0) (num_offset o v : Nat) (ho : o < num_offset)
    (hv : v < speeds.length)
    (hfit : fitsInt (4 * (num_offset * speeds.length))) (out : α) :
    ∃ sp, construct pi speeds (r0 :: r1 :: rest) edge_offset num_offset = Outcome.ok sp ∧
      (o * speeds.length + v ≠ 2 * num_offset * speeds.length + o * speeds.length + v ∧
        ((0 : Int) ≤ ((o * speeds.length + v : Nat) : Int) ∧
          ((o * speeds.length + v : Nat) : Int) < size sp) ∧
        ((0 : Int) ≤ ((2 * num_offset * speeds.length + o * speeds.length + v : Nat) : Int) ∧
          ((2 * num_offset * speeds.length + o * speeds.length + v : Nat) : Int) < size sp) ∧
        action_similarity w sqrt sp ((o * speeds.length + v : Nat) : Int)
          ((2 * num_offset * speeds.length + o * speeds.length + v : Nat) : Int) out =
          Outcome.ok (true, 0)) ∧
      (num_offset * speeds.length + o * speeds.length + v ≠
          3 * num_offset * speeds.length + o * speeds.length + v ∧
        ((0 : Int) ≤ ((num_offset * speeds.length + o * speeds.length + v : Nat) : Int) ∧
          ((num_offset * speeds.length + o * speeds.length + v : Nat) : Int) < size sp) ∧
        ((0 : Int) ≤ ((3 * num_offset * speeds.length + o * speeds.length + v : Nat) : Int) ∧
          ((3 * num_offset * speeds.length + o * speeds.length + v : Nat) : Int) < size sp) ∧
        action_similarity w sqrt sp
          ((num_offset * speeds.length + o * speeds.length + v : Nat) : Int)
          ((3 * num_offset * speeds.length + o * speeds.length + v : Nat) : Int) out =
          Outcome.ok (true, 0)) := by
  obtain ⟨sp, hc, hlen, hslot⟩ :=
    construct_slot pi speeds r0 r1 rest edge_offset num_offset hfit
  have hfits : fitsInt sp.m_actions.length := by rw [hlen]; exact hfit
  have hpos : 0 < num_offset * speeds.length := Nat.mul_pos (by omega) (by omega)
  have e0 : o * speeds.length + v = 0 * (num_offset * speeds.length) + (o * speeds.length + v) := by
    ring
  have e1 : num_offset * speeds.length + o * speeds.length + v =
      1 * (num_offset * speeds.length) + (o * speeds.length + v) := by ring
  have e2 : 2 * num_offset * speeds.length + o * speeds.length + v =
      2 * (num_offset * speeds.length) + (o * speeds.length + v) := by ring
  have e3 : 3 * num_offset * speeds.length + o * speeds.length + v =
      3 * (num_offset * speeds.length) + (o * speeds.length + v) := by ring
  have s0 := hslot 0 o v (by decide) ho hv
  have s1 := hslot 1 o v (by decide) ho hv
  have s2 := hslot 2 o v (by decide) ho hv
  have s3 := hslot 3 o v (by decide) ho hv
  rw [← e0] at s0
  rw [← e1] at s1
  rw [← e2] at s2
  rw [← e3] at s3
  obtain ⟨hF, hB, hFB⟩ := action_similarity_of_table_slots w hw sqrt sp hfits _ _ _ _ s0 s2 out
  obtain ⟨hL, hR, hLR⟩ := action_similarity_of_table_slots w hw sqrt sp hfits _ _ _ _ s1 s3 out
  refine ⟨sp, hc, ⟨?_, hF, hB, ?_⟩, ⟨?_, hL, hR, ?_⟩⟩
  · rw [e2]; omega
  · rw [hFB]
    have hr : (if (sides pi).getD 0 0 = FRONT ∨ (sides pi).getD 0 0 = BACK pi then r0 else r1) =
        (if (sides pi).getD 2 0 = FRONT ∨ (sides pi).getD 2 0 = BACK pi then r0 else r1) := by
      have h0 : (sides pi).getD 0 0 = FRONT := rfl
      have h2 : (sides pi).getD 2 0 = BACK pi := rfl
      rw [h0, h2, if_pos (Or.inl rfl), if_pos (Or.inr rfl)]
    simp only [hr, sub_self]
    simp [hsqrt]
  · rw [e1, e3]; omega
  · rw [hLR]
    have hr : (if (sides pi).getD 1 0 = FRONT ∨ (sides pi).getD 1 0 = BACK pi then r0 else r1) =
        (if (sides pi).getD 3 0 = FRONT ∨ (sides pi).getD 3 0 = BACK pi then r0 else r1) :=
      sideRatio_left_eq_right pi r0 r1
    simp only [hr, sub_self]
    simp [hsqrt]

end ObjectOrientedActionSpace

/-! ## ObjectOrientedActionSpace: range of the edge offset ratio -/

namespace ObjectOrientedActionSpace

end ObjectOrientedActionSpace

/-! ## The concrete GenericActionSpace scenario, over the reals -/

namespace GenericActionSpace

theorem m_headings_four :
    m_headings Real.pi 4 = [0, Real.pi / 2, Real.pi, 3 * Real.pi / 2] := by
  unfold m_headings linspace
  simp only [List.range_succ, List.range_zero, List.nil_append, List.cons_append,
    List.map_cons, List.map_nil]
  norm_num
  refine ⟨?_, ?_, ?_⟩ <;> ring

theorem scenario_facts (w : Nat) (hw : 32 ≤ w) :
    ∃ sp, construct Real.pi [1 / 2, 1] [1] 4 = Outcome.ok sp ∧ size sp = 8 ∧
      get_action w sp 0 = Outcome.ok (some (Action.mk (1 / 2) 1 0)) ∧
      get_action w sp 2 = Outcome.ok (some (Action.mk (1 / 2) 1 Real.pi)) ∧
      get_action w sp 4 = Outcome.ok (some (Action.mk 1 1 0)) ∧
      action_similarity w Real.sqrt Real.cos Real.sin sp 0 4 = Outcome.ok (1 / 2) ∧
      action_similarity w Real.sqrt Real.cos Real.sin sp 0 2 = Outcome.ok 2 := by
  obtain ⟨sp, hc, hsz, hslot⟩ := construct_filled Real.pi [1 / 2, 1] [1] 4
    (by decide) (by decide)
  have h0 : sp.m_actions[0]? = some (some (Action.mk (1 / 2) 1 0)) := by
    have h := hslot 0 (by decide)
    simpa [m_headings_four] using h
  have h2 : sp.m_actions[2]? = some (some (Action.mk (1 / 2) 1 Real.pi)) := by
    have h := hslot 2 (by decide)
    simpa [m_headings_four] using h
  have h4 : sp.m_actions[4]? = some (some (Action.mk 1 1 0)) := by
    have h := hslot 4 (by decide)
    simpa [m_headings_four] using h
  have g0 := get_action_of_slot w hw sp 0 (by decide) _ h0
  have g2 := get_action_of_slot w hw sp 2 (by decide) _ h2
  have g4 := get_action_of_slot w hw sp 4 (by decide) _ h4
  have s04 := action_similarity_of_slots w hw Real.sqrt Real.cos Real.sin sp 0 4
    (by decide) (by decide) _ _ h0 h4
  have s02 := action_similarity_of_slots w hw Real.sqrt Real.cos Real.sin sp 0 2
    (by decide) (by decide) _ _ h0 h2
  refine ⟨sp, hc, ?_, by exact_mod_cast g0, by exact_mod_cast g2, by exact_mod_cast g4,
    ?_, ?_⟩
  · rw [hsz]
    rfl
  · have hval : ((1 / 2 : ℝ) - 1) ^ 2 + ((1 : ℝ) - 1) ^ 2 +
        (Real.cos 0 - Real.cos 0) ^ 2 + (Real.sin 0 - Real.sin 0) ^ 2 = (1 / 2) ^ 2 := by
      norm_num
    have hs : action_similarity w Real.sqrt Real.cos Real.sin sp 0 4 =
        Outcome.ok (Real.sqrt (((1 / 2 : ℝ) - 1) ^ 2 + ((1 : ℝ) - 1) ^ 2 +
          (Real.cos 0 - Real.cos 0) ^ 2 + (Real.sin 0 - Real.sin 0) ^ 2)) := by
      simp only [Nat.cast_zero, Nat.cast_ofNat] at s04
      exact s04
    rw [hs, hval, Real.sqrt_sq (by norm_num)]
  · have hval : ((1 / 2 : ℝ) - 1 / 2) ^ 2 + ((1 : ℝ) - 1) ^ 2 +
        (Real.cos 0 - Real.cos Real.pi) ^ 2 + (Real.sin 0 - Real.sin Real.pi) ^ 2 =
        2 ^ 2 := by
      rw [Real.cos_zero, Real.cos_pi, Real.sin_zero, Real.sin_pi]
      norm_num
    have hs : action_similarity w Real.sqrt Real.cos Real.sin sp 0 2 =
        Outcome.ok (Real.sqrt (((1 / 2 : ℝ) - 1 / 2) ^ 2 + ((1 : ℝ) - 1) ^ 2 +
          (Real.cos 0 - Real.cos Real.pi) ^ 2 + (Real.sin 0 - Real.sin Real.pi) ^ 2)) := by
      simp only [Nat.cast_zero, Nat.cast_ofNat] at s02
      exact s02
    rw [hs, hval, Real.sqrt_sq (by norm_num)]

/-- C16, the claim as stated fails. Over the reals, for `speeds = {0.5, 1.0}`,
`durations = {1.0}`, `num_heading = 4`: `get_action(4)` is the action with
speed `1.0`, duration `1.0`, heading `0`, not the one with speed `0.5` and
heading `π`; and `action_similarity(0, 4)` is `0.5`, not `2.0`. -/
theorem C16_scenario_as_stated_fails :
    ∃ sp, construct Real.pi [1 / 2, 1] [1] 4 = Outcome.ok sp ∧
      get_action 64 sp 4 = Outcome.ok (some (Action.mk 1 1 0)) ∧
      get_action 64 sp 4 ≠ Outcome.ok (some (Action.mk (1 / 2) 1 Real.pi)) ∧
      action_similarity 64 Real.sqrt Real.cos Real.sin sp 0 4 = Outcome.ok (1 / 2) ∧
      action_similarity 64 Real.sqrt Real.cos Real.sin sp 0 4 ≠ Outcome.ok 2 := by
  obtain ⟨sp, hc, _, _, _, g4, s04, _⟩ := scenario_facts 64 (by decide)
  refine ⟨sp, hc, g4, ?_, s04, ?_⟩
  · rw [g4]
    intro h
    have h1 := Option.some.inj (Outcome.ok.inj h)
    have h2 : (1 : ℝ) = 1 / 2 := congrArg Action.m_speed h1
    norm_num at h2
  · rw [s04]
    intro h
    have h1 : (1 / 2 : ℝ) = 2 := Outcome.ok.inj h
    norm_num at h1

/-- C16, amended. Over the reals, for `speeds = {0.5, 1.0}`,
`durations = {1.0}`, `num_heading = 4`: `size() == 8`; `get_action(0)` has
speed `0.5`, duration `1.0`, heading `0`; `get_action(4)` has speed `1.0`,
duration `1.0`, heading `0`, the action with speed `0.5`, duration `1.0` and
heading `π` being `get_action(2)`; `action_similarity(0, 4)` equals `0.5` and
`action_similarity(0, 2)` equals `2.0`. -/
theorem C16_scenario_amended (w : Nat) (hw : 32 ≤ w) :
    ∃ sp, construct Real.pi [1 / 2, 1] [1] 4 = Outcome.ok sp ∧ size sp = 8 ∧
      get_action w sp 0 = Outcome.ok (some (Action.mk (1 / 2) 1 0)) ∧
      get_action w sp 4 = Outcome.ok (some (Action.mk 1 1 0)) ∧
      get_action w sp 2 = Outcome.ok (some (Action.mk (1 / 2) 1 Real.pi)) ∧
      action_similarity w Real.sqrt Real.cos Real.sin sp 0 4 = Outcome.ok (1 / 2) ∧
      action_similarity w Real.sqrt Real.cos Real.sin sp 0 2 = Outcome.ok 2 := by
  obtain ⟨sp, hc, hsz, g0, g2, g4, s04, s02⟩ := scenario_facts w hw
  exact ⟨sp, hc, hsz, g0, g4, g2, s04, s02⟩

end GenericActionSpace

/-! ## Construction parameters are not validated -/

theorem ObjectOrientedActionSpace.construct_ratios_rest (pi : α) (speeds : List α)
    (r0 r1 : α) (rest : List α) (edge_offset : α) (num_offset : Nat)
    (hfit : fitsInt (4 * (num_offset * speeds.length))) :
    ∃ acts : List (GenericAction α),
      ObjectOrientedActionSpace.construct pi speeds (r0 :: r1 :: rest) edge_offset num_offset =
        Outcome.ok (ObjectOrientedActionSpace.mk speeds (r0 :: r1 :: rest) num_offset 60
          edge_offset acts) ∧
      ObjectOrientedActionSpace.construct pi speeds [r0, r1] edge_offset num_offset =
        Outcome.ok (ObjectOrientedActionSpace.mk speeds [r0, r1] num_offset 60
          edge_offset acts) ∧
      acts.length = 4 * (num_offset * speeds.length) := by
  obtain ⟨acts, hc, hlen, _⟩ :=
    ObjectOrientedActionSpace.construct_eq pi speeds r0 r1 rest edge_offset num_offset hfit
  obtain ⟨acts2, hc2, _, _⟩ :=
    ObjectOrientedActionSpace.construct_eq pi speeds r0 r1 [] edge_offset num_offset hfit
  have hfits : fitsInt acts.length := by rw [hlen]; exact hfit
  have hacts : acts2 = acts := by
    unfold ObjectOrientedActionSpace.construct at hc hc2
    rw [ObjectOrientedActionSpace.buildActions_eq, Outcome.ok_bind] at hc hc2
    generalize (ObjectOrientedActionSpace.sides pi).flatMap _ = A at hc hc2
    by_cases hf : fitsInt A.length
    · rw [if_pos hf] at hc hc2
      have e1 := congrArg ObjectOrientedActionSpace.m_actions (Outcome.ok.inj hc)
      have e2 := congrArg ObjectOrientedActionSpace.m_actions (Outcome.ok.inj hc2)
      exact e2.symm.trans e1
    · rw [if_neg hf] at hc
      exact Outcome.noConfusion hc
  rw [hacts] at hc2
  exact ⟨acts, hc, hc2, hlen⟩

/-- C18, the claim as stated fails. A `GenericActionSpace` with
`num_heading = 3` (below 4, not a power of two) is constructed, with a table
of `2 * 1 * 3 = 6` actions; an `ObjectOrientedActionSpace` with the
three-element ratio vector `{2, 3, 5}` is constructed, with `4` actions. -/
theorem C18_malformed_parameters_accepted :
    (∃ sp, GenericActionSpace.construct (22 / 7 : ℚ) [1 / 2, 1] [1] 3 = Outcome.ok sp ∧
      sp.m_actions.length = 6 ∧ GenericActionSpace.size sp = 6 ∧
      ∀ id : Nat, id < 6 → ∃ a, sp.m_actions[id]? = some (some a)) ∧
    (∃ sp, ObjectOrientedActionSpace.construct (22 / 7 : ℚ) [1] [2, 3, 5] 10 1 =
        Outcome.ok sp ∧
      sp.m_actions.length = 4 ∧ ObjectOrientedActionSpace.size sp = 4) := by
  constructor
  · refine ⟨_, GenericActionSpace.construct_ok (22 / 7 : ℚ) [1 / 2, 1] [1] 3 (by decide)
      (by decide) (by decide) (by decide), ?_, ?_, ?_⟩
    · show (GenericActionSpace.fillActions _ _ _ _ _).length = 6
      rw [GenericActionSpace.fillActions_length, List.length_replicate]
      rfl
    · rw [GenericActionSpace.size_mk_fillActions ([1 / 2, 1] : List ℚ) [1] _ 3 (by decide)]
      rfl
    · intro id hid
      exact ⟨_, GenericActionSpace.fillActions_slot ([1 / 2, 1] : List ℚ) [1] _ 3 id hid⟩
  · obtain ⟨acts, hc, _, hlen⟩ :=
      ObjectOrientedActionSpace.construct_ratios_rest (22 / 7 : ℚ) [1] 2 3 [5] 10 1
        (by decide)
    have h4 : acts.length = 4 := hlen
    refine ⟨_, hc, h4, ?_⟩
    show toInt acts.length = 4
    rw [h4]
    decide

/-- C18, amended. The constructors do not validate their parameters. For every
`num_heading >= 1`, in particular below 4 or not a power of two, the
`GenericActionSpace` constructor succeeds and builds a table of
`num_speed * num_duration * num_heading` actions (sizes fitting in `int`):
the table has that length and each of its slots holds an action (is
non-null), the one of the speed, duration and heading that the slot index
decodes to. For every ratio vector with at least two elements the
`ObjectOrientedActionSpace` constructor succeeds and builds the same table of
`4 * num_offset * num_speed` actions as for its first two elements alone: the
elements past the second are ignored. -/
theorem C18_construction_not_validated (pi : α) (speeds durations : List α)
    (num_heading : Nat) (hnh : 1 ≤ num_heading) (hs : fitsInt speeds.length)
    (hd : fitsInt durations.length)
    (hfit : fitsInt (speeds.length * durations.length * num_heading))
    (speeds2 : List α) (r0 r1 : α) (rest : List α) (edge_offset : α) (num_offset : Nat)
    (hfit2 : fitsInt (4 * (num_offset * speeds2.length))) :
    (∃ sp, GenericActionSpace.construct pi speeds durations num_heading = Outcome.ok sp ∧
      sp.m_actions.length = speeds.length * durations.length * num_heading ∧
      ∀ id : Nat, id < speeds.length * durations.length * num_heading →
        ∃ speed duration heading,
          speeds[id / (durations.length * num_heading)]? = some speed ∧
          durations[id / num_heading % durations.length]? = some duration ∧
          (GenericActionSpace.m_headings pi num_heading)[id % num_heading]? = some heading ∧
          sp.m_actions[id]? =
            some (some (GenericActionSpace.Action.mk speed duration heading))) ∧
    (∃ sp sp2,
      ObjectOrientedActionSpace.construct pi speeds2 (r0 :: r1 :: rest) edge_offset num_offset =
        Outcome.ok sp ∧
      ObjectOrientedActionSpace.construct pi speeds2 [r0, r1] edge_offset num_offset =
        Outcome.ok sp2 ∧
      sp.m_actions = sp2.m_actions ∧
      sp.m_actions.length = 4 * (num_offset * speeds2.length)) := by
  constructor
  · have h1 : speeds.length * durations.length ≤
        speeds.length * durations.length * num_heading := Nat.le_mul_of_pos_right _ hnh
    refine ⟨_, GenericActionSpace.construct_ok pi speeds durations num_heading hs hd
      (GenericActionSpace.fitsInt_of_le _ _ h1 hfit) hfit, ?_, ?_⟩
    · show (GenericActionSpace.fillActions _ _ _ _ _).length = _
      rw [GenericActionSpace.fillActions_length, List.length_replicate]
    · intro id hid
      obtain ⟨hj, hk, hl, _⟩ :=
        decode_spec speeds.length durations.length num_heading id hid
      have hh : id % num_heading < (GenericActionSpace.m_headings pi num_heading).length := by
        unfold GenericActionSpace.m_headings
        rw [linspace_length]
        exact hl
      refine ⟨_, _, _, getElem?_eq_some_getD speeds _ 0 hj,
        getElem?_eq_some_getD durations _ 0 hk,
        getElem?_eq_some_getD (GenericActionSpace.m_headings pi num_heading) _ 0 hh, ?_⟩
      exact GenericActionSpace.fillActions_slot speeds durations _ num_heading id hid
  · obtain ⟨acts, hc, hc2, hlen⟩ :=
      ObjectOrientedActionSpace.construct_ratios_rest pi speeds2 r0 r1 rest edge_offset
        num_offset hfit2
    exact ⟨_, _, hc, hc2, rfl, hlen⟩

/-! ## Instances of the similarity and transform theorems -/

/-- Instance of C11: `speeds = {1/2, 1}`, `durations = {1}`, `num_heading = 4`,
ids 0 and 4, `w = 64`, the identity in place of `sqrt`, `cos` and `sin`. -/
theorem C11_similarity_is_euclidean_witness :
    (32 ≤ 64 ∧ 0 < ([1 / 2, 1] : List ℚ).length * ([1] : List ℚ).length * 4 ∧
      4 < ([1 / 2, 1] : List ℚ).length * ([1] : List ℚ).length * 4 ∧
      fitsInt (([1 / 2, 1] : List ℚ).length * ([1] : List ℚ).length * 4)) ∧
    ∃ sp, GenericActionSpace.construct (22 / 7 : ℚ) [1 / 2, 1] [1] 4 = Outcome.ok sp ∧
      ∃ a1 a2, sp.m_actions[0]? = some (some a1) ∧ sp.m_actions[4]? = some (some a2) ∧
        GenericActionSpace.action_similarity 64 (fun x => x) (fun x => x) (fun x => x) sp
            ((0 : Nat) : Int) ((4 : Nat) : Int) =
          Outcome.ok ((a1.m_speed - a2.m_speed) ^ 2 + (a1.m_duration - a2.m_duration) ^ 2 +
            (a1.m_heading - a2.m_heading) ^ 2 + (a1.m_heading - a2.m_heading) ^ 2) :=
  ⟨⟨by decide, by decide, by decide, by decide⟩,
    match GenericActionSpace.C11_similarity_is_euclidean 64 (by decide) (fun x => x)
      (fun x => x) (fun x => x) (22 / 7 : ℚ) [1 / 2, 1] [1] 4 0 4 (by decide) (by decide)
      (by decide) with
    | ⟨sp, hsp, _, h⟩ => ⟨sp, hsp, h⟩⟩

/-- Instance of C12: the four-action space, `w = 64`, `id = 2`, the identity in
place of `sqrt`. -/
theorem C12_similarity_self_zero_witness :
    (32 ≤ 64 ∧ (fun x : ℚ => x) 0 = 0 ∧ fitsInt exampleObjectSpace.m_actions.length ∧
      isInt 2 ∧ ((0 : Int) ≤ 2 ∧ (2 : Int) < ObjectOrientedActionSpace.size exampleObjectSpace)) ∧
    ObjectOrientedActionSpace.action_similarity 64 (fun x => x) exampleObjectSpace 2 2 7 =
      Outcome.ok (true, 0) :=
  ⟨⟨by decide, rfl, by decide, by decide, by decide⟩,
    (C12_similarity_self_zero 64 (by decide) (fun x : ℚ => x) (fun x => x) (fun x => x)
      rfl).1 exampleObjectSpace 2 7 (by decide) (by decide) (by decide)⟩

/-- Instance of C13: the four-action space, `w = 64`, ids 0 and 1, the identity
in place of `sqrt`. -/
theorem C13_similarity_symmetric_witness :
    (32 ≤ 64 ∧ fitsInt exampleObjectSpace.m_actions.length ∧ isInt 0 ∧ isInt 1 ∧
      ((0 : Int) ≤ 0 ∧ (0 : Int) < ObjectOrientedActionSpace.size exampleObjectSpace) ∧
      ((0 : Int) ≤ 1 ∧ (1 : Int) < ObjectOrientedActionSpace.size exampleObjectSpace)) ∧
    ∃ d, ObjectOrientedActionSpace.action_similarity 64 (fun x => x) exampleObjectSpace 0 1 7 =
        Outcome.ok (true, d) ∧
      ObjectOrientedActionSpace.action_similarity 64 (fun x => x) exampleObjectSpace 1 0 7 =
        Outcome.ok (true, d) :=
  ⟨⟨by decide, by decide, by decide, by decide, by decide, by decide⟩,
    (C13_similarity_symmetric 64 (by decide) (fun x : ℚ => x) (fun x => x)
      (fun x => x)).1 exampleObjectSpace 0 1 7 (by decide) (by decide) (by decide)
      (by decide) (by decide)⟩

/-- Instance of C14: `speeds = {1}`, `ratios = {2, 3}`, `edge_offset = 10`,
`num_offset = 1`, `w = 64`; the concrete scenario with the constant `1` in
place of `cos` and the identity in place of `sin` and of the normalization. -/
theorem C14_world_frame_transform_witness :
    (32 ≤ 64 ∧ fitsInt (4 * (1 * ([1] : List ℚ).length)) ∧ (fun _ : ℚ => (1 : ℚ)) 0 = 1 ∧
      (fun x : ℚ => x) 0 = 0) ∧
    ∃ sp, ObjectOrientedActionSpace.construct (22 / 7 : ℚ) [1] [2, 3] 10 1 = Outcome.ok sp ∧
      ∀ out : ObjectOrientedAction ℚ,
        ObjectOrientedActionSpace.get_generic_to_object_oriented_action 64 (fun _ => 1)
          (fun x => x) (fun x => x) sp 0 (SE2State.mk 0 0 0) out =
          Outcome.ok (true, ObjectOrientedAction.mk 1 (-60, 0, 0)) :=
  ⟨⟨by decide, by decide, rfl, rfl⟩,
    (ObjectOrientedActionSpace.C14_world_frame_transform 64 (by decide) (fun _ : ℚ => (1 : ℚ))
      (fun x => x) (fun x => x) (22 / 7 : ℚ) [1] 2 3 [] 10 1 (by decide)).2
      rfl rfl rfl⟩

/-- Instance of C15: the four-action space, `w = 64`, `id = 4 = size()`. -/
theorem C15_transform_invalid_id_witness :
    (32 ≤ 64 ∧ fitsInt exampleObjectSpace.m_actions.length ∧ isInt 4 ∧
      ¬ ((0 : Int) ≤ 4 ∧ (4 : Int) < ObjectOrientedActionSpace.size exampleObjectSpace)) ∧
    (ObjectOrientedActionSpace.get_generic_to_object_oriented_action 64 (fun x => x)
        (fun x => x) (fun x => x) exampleObjectSpace 4 (SE2State.mk 0 0 0)
        (ObjectOrientedAction.mk 5 (1, 2, 3)) =
        Outcome.ok (false, ObjectOrientedAction.mk 5 (1, 2, 3)) ∧
      ObjectOrientedActionSpace.publish_action 64 (fun x => x) (fun x => x) (fun x => x)
        exampleObjectSpace 4 [] (SE2State.mk 0 0 0) = Outcome.ok (false, [])) :=
  ⟨⟨by decide, by decide, by decide, by decide⟩,
    (ObjectOrientedActionSpace.C15_transform_invalid_id 64 (by decide) (fun x : ℚ => x)
      (fun x => x) (fun x => x) exampleObjectSpace (by decide) 4 (by decide)
      (SE2State.mk 0 0 0) (ObjectOrientedAction.mk 5 (1, 2, 3)) []).2.1 (by decide)⟩

/-- Instance of C16 as amended: `w = 64`. -/
theorem C16_scenario_amended_witness :
    32 ≤ 64 ∧
    ∃ sp, GenericActionSpace.construct Real.pi [1 / 2, 1] [1] 4 = Outcome.ok sp ∧
      GenericActionSpace.size sp = 8 ∧
      GenericActionSpace.get_action 64 sp 4 =
        Outcome.ok (some (GenericActionSpace.Action.mk 1 1 0)) :=
  ⟨by decide,
    match GenericActionSpace.C16_scenario_amended 64 (by decide) with
    | ⟨sp, hsp, hsz, _, h4, _⟩ => ⟨sp, hsp, hsz, h4⟩⟩

/-- Instance of C18 as amended: `num_heading = 3`, and the ratio vector
`{2, 3, 5}`. -/
theorem C18_construction_not_validated_witness :
    (1 ≤ 3 ∧ fitsInt ([1 / 2, 1] : List ℚ).length ∧ fitsInt ([1] : List ℚ).length ∧
      fitsInt (([1 / 2, 1] : List ℚ).length * ([1] : List ℚ).length * 3) ∧
      fitsInt (4 * (1 * ([1] : List ℚ).length))) ∧
    ∃ sp, GenericActionSpace.construct (22 / 7 : ℚ) [1 / 2, 1] [1] 3 = Outcome.ok sp ∧
      sp.m_actions.length = ([1 / 2, 1] : List ℚ).length * ([1] : List ℚ).length * 3 ∧
      ∀ id : Nat, id < ([1 / 2, 1] : List ℚ).length * ([1] : List ℚ).length * 3 →
        ∃ speed duration heading,
          ([1 / 2, 1] : List ℚ)[id / (([1] : List ℚ).length * 3)]? = some speed ∧
          ([1] : List ℚ)[id / 3 % ([1] : List ℚ).length]? = some duration ∧
          (GenericActionSpace.m_headings (22 / 7 : ℚ) 3)[id % 3]? = some heading ∧
          sp.m_actions[id]? =
            some (some (GenericActionSpace.Action.mk speed duration heading)) :=
  ⟨⟨by decide, by decide, by decide, by decide, by decide⟩,
    (C18_construction_not_validated (22 / 7 : ℚ) [1 / 2, 1] [1] 3 (by decide) (by decide)
      (by decide) (by decide) [1] 2 3 [5] 10 1 (by decide)).1⟩

/-- Instance of C19 as amended: `speeds = {1, 2}`, `ratios = {2, 3}`, `edge_offset = 10`,
`num_offset = 2`, `o = 1`, `v = 0`, `w = 64`, the identity in place of `sqrt`. -/
theorem C19_similarity_ignores_side_witness :
    (32 ≤ 64 ∧ (fun x : ℚ => x) 0 = 0 ∧ (10 : ℚ) ≠ 0 ∧ 1 < 2 ∧
      0 < ([1, 2] : List ℚ).length ∧ fitsInt (4 * (2 * ([1, 2] : List ℚ).length))) ∧
    ∃ sp, ObjectOrientedActionSpace.construct (22 / 7 : ℚ) [1, 2] [2, 3] 10 2 =
        Outcome.ok sp ∧
      ObjectOrientedActionSpace.action_similarity 64 (fun x => x) sp
        ((1 * ([1, 2] : List ℚ).length + 0 : Nat) : Int)
        ((2 * 2 * ([1, 2] : List ℚ).length + 1 * ([1, 2] : List ℚ).length + 0 : Nat) : Int)
        7 = Outcome.ok (true, 0) :=
  ⟨⟨by decide, rfl, by decide, by decide, by decide, by decide⟩,
    match ObjectOrientedActionSpace.C19_similarity_ignores_side 64 (by decide)
      (fun x : ℚ => x) rfl (22 / 7 : ℚ) [1, 2] 2 3 [] 10 (by decide) 2 1 0 (by decide)
      (by decide) (by decide) 7 with
    | ⟨sp, hsp, ⟨_, _, _, h⟩, _⟩ => ⟨sp, hsp, h⟩⟩

end Proofs

/-! ## Facts that hold in every arithmetic -/

section AnyArithmetic

variable {β : Type} [Add β] [Sub β] [Mul β]

theorem Outcome.exists_of_bind_eq_ok {γ δ : Type} (x : Outcome γ) (f : γ → Outcome δ) (v : δ)
    (h : (x >>= f) = Outcome.ok v) : ∃ a, x = Outcome.ok a ∧ f a = Outcome.ok v := by
  cases x with
  | ok a => exact ⟨a, rfl, h⟩
  | ub => exact Outcome.noConfusion h

namespace ObjectOrientedActionSpace

theorem is_valid_action_id_iff_any (w : Nat) (hw : 32 ≤ w) (s : ObjectOrientedActionSpace β)
    (hlen : fitsInt s.m_actions.length) (id : Int) (hid : isInt id) :
    is_valid_action_id w s id = true ↔ 0 ≤ id ∧ id < size s := by
  unfold size
  rw [toInt_of_fitsInt _ hlen]
  unfold is_valid_action_id
  simp only [Bool.and_eq_true, decide_eq_true_eq, ge_iff_le]
  constructor
  · rintro ⟨h1, h0⟩
    rw [toSizeT_of_nonneg w hw id h0 hid.2] at h1
    exact ⟨h0, by omega⟩
  · rintro ⟨h0, h1⟩
    rw [toSizeT_of_nonneg w hw id h0 hid.2]
    exact ⟨by omega, h0⟩

theorem get_generic_of_valid_any (w : Nat) (hw : 32 ≤ w) (cos sin angle_normalization : β → β)
    (s : ObjectOrientedActionSpace β) (id : Int) (hid : isInt id)
    (hv : is_valid_action_id w s id = true) (state : SE2State β)
    (out : ObjectOrientedAction β) :
    ∃ a, s.m_actions[id.toNat]? = some a ∧
      get_generic_to_object_oriented_action w cos sin angle_normalization s id state out =
        Outcome.ok (true, ObjectOrientedAction.mk a.m_speed
          (state.x - s.m_center_offset * cos a.m_heading_offset +
              a.m_edge_offset * s.m_edge_offset * sin a.m_heading_offset,
            state.y - s.m_center_offset * sin a.m_heading_offset +
              a.m_edge_offset * s.m_edge_offset * cos a.m_heading_offset,
            angle_normalization (state.angle + a.m_heading_offset))) := by
  have hv2 := hv
  unfold is_valid_action_id at hv2
  simp only [Bool.and_eq_true, decide_eq_true_eq, ge_iff_le] at hv2
  obtain ⟨h1, h0⟩ := hv2
  have hidx : toSizeT w id = id.toNat := toSizeT_of_nonneg w hw id h0 hid.2
  rw [hidx] at h1
  refine ⟨s.m_actions[id.toNat], List.getElem?_eq_getElem h1, ?_⟩
  unfold get_generic_to_object_oriented_action get_action
  rw [hv, hidx]
  unfold vecIndex
  rw [List.getElem?_eq_getElem h1]
  rfl

/-- C20, amended. For every `ObjectOrientedActionSpace` whose table length
fits in `int` and every valid id: in every arithmetic (in particular in
binary64), two poses with the same position, whatever their orientations,
give the same speed, `x` and `y`; and in exact (field) arithmetic, moving the
object by `(dx, dy)` moves the start position by `(dx, dy)` and leaves
`theta` as it was. -/
theorem C20_displacement_amended (w : Nat) (hw : 32 ≤ w)
    (cosB sinB normB : β → β) (sB : ObjectOrientedActionSpace β)
    (hlenB : fitsInt sB.m_actions.length) (idB : Int) (hidB : isInt idB)
    (hvalidB : 0 ≤ idB ∧ idB < size sB) (outB : ObjectOrientedAction β)
    {α : Type} [Field α] (cos sin angle_normalization : α → α)
    (s : ObjectOrientedActionSpace α) (hlen : fitsInt s.m_actions.length) (id : Int)
    (hid : isInt id) (hvalid : 0 ≤ id ∧ id < size s) (out : ObjectOrientedAction α) :
    (∀ state1 state2 : SE2State β, state1.x = state2.x → state1.y = state2.y →
      ∃ r1 r2,
        get_generic_to_object_oriented_action w cosB sinB normB sB idB state1 outB =
          Outcome.ok (true, r1) ∧
        get_generic_to_object_oriented_action w cosB sinB normB sB idB state2 outB =
          Outcome.ok (true, r2) ∧
        r1.speed = r2.speed ∧ r1.start_pose.1 = r2.start_pose.1 ∧
        r1.start_pose.2.1 = r2.start_pose.2.1) ∧
    (∀ (state : SE2State α) (dx dy : α),
      ∃ r1 r2,
        get_generic_to_object_oriented_action w cos sin angle_normalization s id state out =
          Outcome.ok (true, r1) ∧
        get_generic_to_object_oriented_action w cos sin angle_normalization s id
          (SE2State.mk (state.x + dx) (state.y + dy) state.angle) out =
          Outcome.ok (true, r2) ∧
        r2.speed = r1.speed ∧ r2.start_pose.1 = r1.start_pose.1 + dx ∧
        r2.start_pose.2.1 = r1.start_pose.2.1 + dy ∧
        r2.start_pose.2.2 = r1.start_pose.2.2) := by
  constructor
  · have hv := (is_valid_action_id_iff_any w hw sB hlenB idB hidB).mpr hvalidB
    intro state1 state2 hx hy
    obtain ⟨a, ha, h1⟩ := get_generic_of_valid_any w hw cosB sinB normB sB idB hidB hv
      state1 outB
    obtain ⟨b, hb, h2⟩ := get_generic_of_valid_any w hw cosB sinB normB sB idB hidB hv
      state2 outB
    have hab : b = a := Option.some.inj (hb.symm.trans ha)
    refine ⟨_, _, h1, h2, ?_, ?_, ?_⟩
    · rw [hab]
    · show state1.x - _ + _ = state2.x - _ + _
      rw [hab, hx]
    · show state1.y - _ + _ = state2.y - _ + _
      rw [hab, hy]
  · have hv := (is_valid_action_id_iff_any w hw s hlen id hid).mpr hvalid
    intro state dx dy
    obtain ⟨a, ha, h1⟩ := get_generic_of_valid_any w hw cos sin angle_normalization s id hid
      hv state out
    obtain ⟨b, hb, h2⟩ := get_generic_of_valid_any w hw cos sin angle_normalization s id hid
      hv (SE2State.mk (state.x + dx) (state.y + dy) state.angle) out
    have hab : b = a := Option.some.inj (hb.symm.trans ha)
    refine ⟨_, _, h1, h2, ?_, ?_, ?_, ?_⟩
    · rw [hab]
    · show state.x + dx - _ + _ = state.x - _ + _ + dx
      rw [hab]
      ring
    · show state.y + dy - _ + _ = state.y - _ + _ + dy
      rw [hab]
      ring
    · show angle_normalization _ = angle_normalization _
      rw [hab]

end ObjectOrientedActionSpace

end AnyArithmetic

/-! ## Runs in binary64 -/

namespace ObjectOrientedActionSpace

/-- C19, the claim as stated fails. In binary64, for `speeds = {1}`,
`ratios = {2, 3}`, `edge_offset = 0`, `num_offset = 1`: the constructor
succeeds with four actions whose edge offset ratio `-0 / 0` is NaN, and
`action_similarity` of the `FRONT` id 0 and the `BACK` id 2, and of the `LEFT`
id 1 and the `RIGHT` id 3, returns `true` and stores NaN, not `0`. -/
theorem C19_zero_edge_offset_gives_nan :
    ∃ sp, construct M_PI [1] [2, 3] 0 1 = Outcome.ok sp ∧
      size sp = 4 ∧
      sp.m_actions.map GenericAction.m_edge_offset = [F64.nan, F64.nan, F64.nan, F64.nan] ∧
      action_similarity 64 F64.sqrt sp 0 2 0 = Outcome.ok (true, F64.nan) ∧
      action_similarity 64 F64.sqrt sp 0 2 0 ≠ Outcome.ok (true, 0) ∧
      action_similarity 64 F64.sqrt sp 1 3 0 = Outcome.ok (true, F64.nan) ∧
      action_similarity 64 F64.sqrt sp 1 3 0 ≠ Outcome.ok (true, 0) := by
  have h1 : ((construct M_PI [1] [2, 3] 0 1) >>= fun sp =>
      action_similarity 64 F64.sqrt sp 0 2 0) = Outcome.ok (true, F64.nan) := by
    decide!
  have h2 : ((construct M_PI [1] [2, 3] 0 1) >>= fun sp =>
      action_similarity 64 F64.sqrt sp 1 3 0) = Outcome.ok (true, F64.nan) := by
    decide!
  have h3 : ((construct M_PI [1] [2, 3] 0 1) >>= fun sp =>
      Outcome.ok (sp.m_actions.map GenericAction.m_edge_offset)) =
      Outcome.ok [F64.nan, F64.nan, F64.nan, F64.nan] := by
    decide!
  have h4 : ((construct M_PI [1] [2, 3] 0 1) >>= fun sp => Outcome.ok (size sp)) =
      Outcome.ok 4 := by
    decide!
  obtain ⟨sp, hsp, e1⟩ := Outcome.exists_of_bind_eq_ok _ _ _ h1
  rw [hsp, Outcome.ok_bind] at h2 h3 h4
  refine ⟨sp, hsp, Outcome.ok.inj h4, Outcome.ok.inj h3, e1, ?_, h2, ?_⟩
  · rw [e1]; decide
  · rw [h2]; decide

/-- C20, the claim as stated fails. In binary64, for `speeds = {1}`,
`ratios = {2, 3}`, `edge_offset = 10`, `num_offset = 1` and the `FRONT`
action (id 0), with `cos 0 = 1` and `sin 0 = 0`: the object at `(0.2, 0)` gives
`x = -59.8`; moved by `(0.2, 0)` to `(0.4, 0)`, a sum that is exact, it gives
`x = -59.6`; but `-59.8 + 0.2` is not `-59.6`, neither as a binary64 sum
(which is `-59.599999999999994`) nor as an exact sum. -/
theorem C20_translation_not_exact_in_binary64 :
    ∃ sp, construct M_PI [1] [2, 3] 10 1 = Outcome.ok sp ∧
      get_generic_to_object_oriented_action 64 (fun _ => 1) (fun x => x) (fun x => x) sp 0
        (SE2State.mk (2 / 10) 0 0) (ObjectOrientedAction.mk 0 (0, 0, 0)) =
        Outcome.ok (true, ObjectOrientedAction.mk 1 (-(598 / 10), 0, 0)) ∧
      get_generic_to_object_oriented_action 64 (fun _ => 1) (fun x => x) (fun x => x) sp 0
        (SE2State.mk (2 / 10 + 2 / 10) (0 + 0) 0) (ObjectOrientedAction.mk 0 (0, 0, 0)) =
        Outcome.ok (true, ObjectOrientedAction.mk 1 (-(596 / 10), 0, 0)) ∧
      F64.toUnits (2 / 10 + 2 / 10) = F64.toUnits (2 / 10) + F64.toUnits (2 / 10) ∧
      (-(596 / 10) : F64) ≠ -(598 / 10) + 2 / 10 ∧
      F64.toUnits (-(596 / 10)) ≠ F64.toUnits (-(598 / 10)) + F64.toUnits (2 / 10) := by
  have h : ((construct M_PI [1] [2, 3] 10 1) >>= fun sp =>
      Outcome.ok
        (get_generic_to_object_oriented_action 64 (fun _ => 1) (fun x => x) (fun x => x) sp 0
          (SE2State.mk (2 / 10) 0 0) (ObjectOrientedAction.mk 0 (0, 0, 0)),
        get_generic_to_object_oriented_action 64 (fun _ => 1) (fun x => x) (fun x => x) sp 0
          (SE2State.mk (2 / 10 + 2 / 10) (0 + 0) 0) (ObjectOrientedAction.mk 0 (0, 0, 0)))) =
      Outcome.ok (Outcome.ok (true, ObjectOrientedAction.mk 1 (-(598 / 10), 0, 0)),
        Outcome.ok (true, ObjectOrientedAction.mk 1 (-(596 / 10), 0, 0))) := by
    decide!
  obtain ⟨sp, hsp, hv⟩ := Outcome.exists_of_bind_eq_ok _ _ _ h
  have hv2 := Outcome.ok.inj hv
  exact ⟨sp, hsp, congrArg Prod.fst hv2, congrArg Prod.snd hv2, by decide!, by decide!,
    by decide!⟩

end ObjectOrientedActionSpace

/-- Instance of C20 as amended: a one-action space over binary64 and the
four-action space over the rationals, `w = 64`, ids 0 and 1, the object moved
by `(3, 4)`. -/
theorem C20_displacement_amended_witness :
    (32 ≤ 64 ∧
      fitsInt (ObjectOrientedActionSpace.mk ([1] : List F64) [2, 3] 1 60 10
        [GenericAction.mk 1 0 2 0]).m_actions.length ∧
      isInt 0 ∧ fitsInt exampleObjectSpace.m_actions.length ∧ isInt 1 ∧
      ((0 : Int) ≤ 1 ∧ (1 : Int) < ObjectOrientedActionSpace.size exampleObjectSpace)) ∧
    ∃ r1 r2,
      ObjectOrientedActionSpace.get_generic_to_object_oriented_action 64 (fun x => x)
        (fun x => x) (fun x => x) exampleObjectSpace 1 (SE2State.mk 0 0 0)
        (ObjectOrientedAction.mk 0 (0, 0, 0)) = Outcome.ok (true, r1) ∧
      ObjectOrientedActionSpace.get_generic_to_object_oriented_action 64 (fun x => x)
        (fun x => x) (fun x => x) exampleObjectSpace 1
        (SE2State.mk ((SE2State.mk (0 : ℚ) 0 0).x + 3) ((SE2State.mk (0 : ℚ) 0 0).y + 4)
          (SE2State.mk (0 : ℚ) 0 0).angle)
        (ObjectOrientedAction.mk 0 (0, 0, 0)) = Outcome.ok (true, r2) ∧
      r2.speed = r1.speed ∧ r2.start_pose.1 = r1.start_pose.1 + 3 ∧
      r2.start_pose.2.1 = r1.start_pose.2.1 + 4 ∧
      r2.start_pose.2.2 = r1.start_pose.2.2 :=
  ⟨⟨by decide, by decide, by decide, by decide, by decide, by decide⟩,
    (ObjectOrientedActionSpace.C20_displacement_amended 64 (by decide)
      (fun x : F64 => x) (fun x => x) (fun x => x)
      (ObjectOrientedActionSpace.mk ([1] : List F64) [2, 3] 1 60 10 [GenericAction.mk 1 0 2 0])
      (by decide) 0 (by decide) (by decide) (ObjectOrientedAction.mk 0 (0, 0, 0))
      (fun x : ℚ => x) (fun x => x) (fun x => x) exampleObjectSpace (by decide) 1
      (by decide) (by decide) (ObjectOrientedAction.mk 0 (0, 0, 0))).2
      (SE2State.mk 0 0 0) 3 4⟩

end actionspace
end libcozmo
